import Mathlib

/-!
Verification of the NGAS janitor-thread reconciliation subsystem
(`src/ngamsServer/ngamsServer/ngamsJanitorThread.py`).

The Python module is embedded shallowly: the bsddb snapshot stores become
association lists from string keys to typed pickled values, the central
database becomes a list of `ngas_files` rows, the filesystem becomes the
list of existing paths, and the janitor's cooperative stop event becomes a
boolean schedule indexed by the number of stop checks performed so far.
Helper collaborators that live in other modules of the repository
(`ngamsLib.genFileKey`, `ngamsFileInfo`, `ngamsDbCore`'s column map) are
modelled from the specification, as marked on their doc comments.
-/

/-- A value stored (pickled) in a bsddb snapshot store: the map counter and
name→id entries hold integers, id→name entries hold strings, and file
entries hold the encoded file-info dictionary (column id → column value). -/
inductive SnapVal where
  | nat : Nat → SnapVal
  | str : String → SnapVal
  | enc : List (Nat × String) → SnapVal
deriving DecidableEq, Repr

/-- A bsddb hash store, embedded as an association list with unique keys
(iteration order is the list order, which is stable during a pass). -/
abbrev Dbm := List (String × SnapVal)

def dbmLookup (d : Dbm) (k : String) : Option SnapVal :=
  match d with
  | [] => none
  | (k', v) :: rest => if k' = k then some v else dbmLookup rest k

/-- `d.has_key(k)` on a bsddb store. -/
def dbmHasKey (d : Dbm) (k : String) : Bool :=
  (dbmLookup d k).isSome

/-- `d[k] = v` on a bsddb store: replace the binding if the key is present,
otherwise append it. -/
def dbmPut (d : Dbm) (k : String) (v : SnapVal) : Dbm :=
  match d with
  | [] => [(k, v)]
  | (k', v') :: rest => if k' = k then (k, v) :: rest else (k', v') :: dbmPut rest k v

/-- `del d[k]` on a bsddb store. -/
def dbmDel (d : Dbm) (k : String) : Dbm :=
  d.filter (fun p => p.1 ≠ k)

/-- `_addInDbm(snapShotDbObj, key, val, sync)`: store a pickled value under a
key (the `sync` flag only affects durability, which the embedding does not
track). -/
def _addInDbm (snapShotDbObj : Dbm) (key : String) (val : SnapVal) : Dbm :=
  dbmPut snapShotDbObj key val

/-- `_readDb(snapShotDbObj, key)`: read and unpickle the value stored under
`key`.  Python raises `KeyError` on a missing key; every call site first
checks `has_key`, so the default value of the total model is never read in
the verified paths. -/
def _readDb (snapShotDbObj : Dbm) (key : String) : SnapVal :=
  (dbmLookup snapShotDbObj key).getD (SnapVal.nat 0)

/-- Does the character list `s` start with `p`? -/
def startsWithL : List Char → List Char → Bool
  | [], _ => true
  | _ :: _, [] => false
  | a :: p, b :: s => a == b && startsWithL p s

/-- Does the character list contain `pat` as a contiguous run? -/
def containsL (pat : List Char) : List Char → Bool
  | [] => startsWithL pat []
  | c :: rest => startsWithL pat (c :: rest) || containsL pat rest

/-- `key.find(pat) != -1` in Python: substring containment. -/
def strFind (s pat : String) : Bool :=
  containsL pat.data s.data

def NGAMS_SN_SH_ID2NM_TAG : String := "___ID2NM___"

def NGAMS_SN_SH_NM2ID_TAG : String := "___NM2ID___"

def NGAMS_SN_SH_MAP_COUNT : String := "___MAP_COUNT___"

/-- Decimal digits of a natural number, most significant first
(the embedding of Python's `str(nameId)` for the nonnegative ids used by
the name dictionary). -/
def natCharsAux : Nat → Nat → List Char
  | 0, _ => []
  | fuel + 1, n =>
    if n < 10 then [Char.ofNat (48 + n)]
    else natCharsAux fuel (n / 10) ++ [Char.ofNat (48 + n % 10)]

def natChars (n : Nat) : List Char := natCharsAux (n + 1) n

def natToStr (n : Nat) : String :=
  ⟨natChars n⟩

def charVal (c : Char) : Nat := c.toNat - 48

def charsVal (l : List Char) : Nat :=
  l.foldl (fun a c => a * 10 + charVal c) 0

/-- Modelled from the spec: the `ngas_files` column list of
`ngamsDbCore.getNgasFilesMap()` (§3: disk id, relative path, file id,
version, format, sizes, compression, dates, checksum, status, I/O time,
container id).  `ngamsDbCore` itself is not part of the supplied sources;
only the column order from `NGAS_FILES_DISK_ID` up to `NGAS_FILES_IO_TIME`
and the fact that `NGAS_FILES_CONTAINER_ID` lies beyond `NGAS_FILES_IO_TIME`
matter to the janitor code. -/
def ngasFilesCols : List String :=
  ["disk_id", "file_name", "file_id", "file_version", "format", "file_size",
   "uncompressed_file_size", "compression", "ingestion_date", "file_ignore",
   "checksum", "checksum_plugin", "file_status", "creation_date", "io_time",
   "container_id"]

def NGAS_FILES_DISK_ID : Nat := 0

def NGAS_FILES_FILE_NAME : Nat := 1

def NGAS_FILES_FILE_ID : Nat := 2

def NGAS_FILES_FILE_VER : Nat := 3

def NGAS_FILES_IO_TIME : Nat := 14

def NGAS_FILES_CONTAINER_ID : Nat := 15

/-- `dbConObj.getNgasFilesMap()[n]` for a column index. -/
def ngasFilesMapIdx (n : Nat) : String :=
  (ngasFilesCols.get? n).getD ""

/-- `dbConObj.getNgasFilesMap()[colName]` for a column name; `none` embeds
Python's `KeyError` for a string that is not a column name. -/
def ngasFilesMapName (colName : String) : Option Nat :=
  ngasFilesCols.findIdx? (· = colName)

/-- Modelled from the spec: an `ngamsFileInfo` object (§3 FileRecord), as
produced by `unpackSqlResult`.  It carries the SQL row (a cell per
`ngas_files` column, `none` where the row had no value) plus the transient
tag field used by the janitor to remember a lost file's expected path. -/
structure FileInfoObj where
  row : List (Option String)
  tag : String
deriving DecidableEq, Repr

def unpackSqlResult (sqlFileInfo : List (Option String)) : FileInfoObj :=
  { row := sqlFileInfo, tag := "" }

def FileInfoObj.getDiskId (f : FileInfoObj) : String :=
  ((f.row.get? NGAS_FILES_DISK_ID).getD none).getD ""

def FileInfoObj.getFilename (f : FileInfoObj) : String :=
  ((f.row.get? NGAS_FILES_FILE_NAME).getD none).getD ""

def FileInfoObj.getFileId (f : FileInfoObj) : String :=
  ((f.row.get? NGAS_FILES_FILE_ID).getD none).getD ""

def FileInfoObj.getFileVersion (f : FileInfoObj) : String :=
  ((f.row.get? NGAS_FILES_FILE_VER).getD none).getD ""

def FileInfoObj.setTag (f : FileInfoObj) (t : String) : FileInfoObj :=
  { f with tag := t }

def FileInfoObj.getTag (f : FileInfoObj) : String := f.tag

/-- Modelled from the spec: `ngamsFileInfo.genSqlResult`, the row a file
info object writes back to the database (empty string where no value). -/
def FileInfoObj.genSqlResult (f : FileInfoObj) : List String :=
  f.row.map (fun c => c.getD "")

/-- Modelled from the spec: `ngamsLib.genFileKey` (§3 SnapshotKey), the key
derived deterministically from the file id and version, with the disk id
prepended when given. -/
def genFileKey (diskId : Option String) (fileId : String) (fileVersion : String) : String :=
  match diskId with
  | some d => d ++ "_" ++ fileId ++ "_" ++ fileVersion
  | none => fileId ++ "_" ++ fileVersion

/-- `_genFileKey` for a raw `ngas_files` row. -/
def _genFileKeyRow (fileInfo : List String) : String :=
  genFileKey none ((fileInfo.get? NGAS_FILES_FILE_ID).getD "")
    ((fileInfo.get? NGAS_FILES_FILE_VER).getD "")

/-- `_genFileKey` for an `ngamsFileInfo` object. -/
def _genFileKeyObj (fileInfo : FileInfoObj) : String :=
  genFileKey none fileInfo.getFileId fileInfo.getFileVersion

def asNat (v : SnapVal) : Nat :=
  match v with
  | SnapVal.nat n => n
  | _ => 0

/-- `_encName(dbSnapshot, name)`: return the id already mapped to `name`,
or allocate the next id from the reserved counter and register the counter,
the name→id entry and the id→name entry.  The Python `try`/`except` blocks
around the three `_addInDbm` calls only re-run the writes when a write
raises, which the embedded store cannot do, so they are elided.  `asNat`
renders the model total on ill-typed (corrupt) stores, where Python would
carry a non-integer id onward. -/
def _encName (dbSnapshot : Dbm) (name : String) : Nat × Dbm :=
  let nm2IdTag := NGAMS_SN_SH_NM2ID_TAG ++ name
  if dbmHasKey dbSnapshot nm2IdTag then
    (asNat (_readDb dbSnapshot nm2IdTag), dbSnapshot)
  else
    let count := if dbmHasKey dbSnapshot NGAMS_SN_SH_MAP_COUNT then
        asNat (_readDb dbSnapshot NGAMS_SN_SH_MAP_COUNT) + 1
      else 0
    let nameId := count
    let id2NmTag := NGAMS_SN_SH_ID2NM_TAG ++ natToStr nameId
    let d1 := _addInDbm dbSnapshot NGAMS_SN_SH_MAP_COUNT (SnapVal.nat count)
    let d2 := _addInDbm d1 nm2IdTag (SnapVal.nat nameId)
    let d3 := _addInDbm d2 id2NmTag (SnapVal.str name)
    (nameId, d3)

/-- Update-or-append on the encoded-file-info dictionary (a Python dict
keyed by column id). -/
def assocPut (d : List (Nat × String)) (k : Nat) (v : String) : List (Nat × String) :=
  match d with
  | [] => [(k, v)]
  | (k', v') :: rest => if k' = k then (k, v) :: rest else (k', v') :: assocPut rest k v

def assocLookup (d : List (Nat × String)) (k : Nat) : Option String :=
  match d with
  | [] => none
  | (k', v) :: rest => if k' = k then some v else assocLookup rest k

/-- `fileInfo[n]` for a row as read from the DB (total model: out-of-range
reads, which Python would turn into an `IndexError`, yield `""`; theorems
about rows carry the row-length hypothesis instead). -/
def rowVal (fileInfo : List String) (n : Nat) : String :=
  (fileInfo.get? n).getD ""

/-- The loop body of `_encFileInfo`, recursing over the column indices. -/
def _encFileInfoLoop (fileInfo : List String) (ns : List Nat)
    (acc : List (Nat × String) × Dbm) : List (Nat × String) × Dbm :=
  match ns with
  | [] => acc
  | n :: rest =>
    let colName := ngasFilesMapIdx n
    let p := _encName acc.2 colName
    _encFileInfoLoop fileInfo rest
      (assocPut acc.1 p.1 (rowVal fileInfo n), p.2)

/-- `_encFileInfo(dbConObj, dbSnapshot, fileInfo)`: encode a DB row into a
dictionary keyed by column-name ids, registering the ids in the store.
The range runs up to `NGAS_FILES_IO_TIME` inclusive. -/
def _encFileInfo (dbSnapshot : Dbm) (fileInfo : List String) :
    List (Nat × String) × Dbm :=
  _encFileInfoLoop fileInfo (List.range (NGAS_FILES_IO_TIME + 1)) ([], dbSnapshot)

/-- The cancellation signal and any other exception unwinding a janitor
pass: `StopJanitorThreadException` or an ordinary Python exception. -/
inductive JExc where
  | stop : JExc
  | err : String → JExc
deriving DecidableEq, Repr

/-- The loop of `_encFileInfo2Obj` over the encoded dictionary entries:
a missing id→name entry returns "no record" (`ok none`); an entry whose
resolved column name is unknown to the column map, or holds a non-string,
embeds the uncaught Python `KeyError`/`TypeError` as an error. -/
def decodeLoop (dbSnapshot : Dbm) (entries : List (Nat × String))
    (sqlFileInfo : List (Option String)) :
    Except JExc (Option (List (Option String))) :=
  match entries with
  | [] => Except.ok (some sqlFileInfo)
  | (idx, v) :: rest =>
    let kid := NGAMS_SN_SH_ID2NM_TAG ++ natToStr idx
    if dbmHasKey dbSnapshot kid then
      match _readDb dbSnapshot kid with
      | SnapVal.str colName =>
        match ngasFilesMapName colName with
        | some i => decodeLoop dbSnapshot rest (sqlFileInfo.set i (some v))
        | none => Except.error (JExc.err "KeyError")
      | _ => Except.error (JExc.err "TypeError")
    else Except.ok none

/-- `_encFileInfo2Obj(dbConObj, dbSnapshot, encFileInfoDic)`: decode an
encoded snapshot record back into a file info object; `ok none` embeds the
`return None` taken when a reverse mapping is missing. -/
def _encFileInfo2Obj (dbSnapshot : Dbm) (encFileInfoDic : List (Nat × String)) :
    Except JExc (Option FileInfoObj) :=
  (decodeLoop dbSnapshot encFileInfoDic
      (List.replicate (NGAS_FILES_CONTAINER_ID + 1) none)).map
    (Option.map unpackSqlResult)

/-- The name-dictionary consistency invariant of a snapshot store (§4.1 of
the spec): every name→id entry is an integer mirrored by the reverse
id→name entry, and the reserved counter is an integer bounding every
allocated id. -/
def DictGood (store : Dbm) : Prop :=
  (∀ name i, dbmLookup store (NGAMS_SN_SH_NM2ID_TAG ++ name) = some (SnapVal.nat i) →
      dbmLookup store (NGAMS_SN_SH_ID2NM_TAG ++ natToStr i) = some (SnapVal.str name)) ∧
  (∀ name i, dbmLookup store (NGAMS_SN_SH_NM2ID_TAG ++ name) = some (SnapVal.nat i) →
      ∃ c, dbmLookup store NGAMS_SN_SH_MAP_COUNT = some (SnapVal.nat c) ∧ i ≤ c) ∧
  (∀ v, dbmLookup store NGAMS_SN_SH_MAP_COUNT = some v → ∃ c, v = SnapVal.nat c) ∧
  (∀ name v, dbmLookup store (NGAMS_SN_SH_NM2ID_TAG ++ name) = some v →
      ∃ i, v = SnapVal.nat i)

/-- The NG/AMS configuration flags consumed by the janitor thread
(`ngamsConfig.getDbSnapshot`, `getAllowArchiveReq`, `getAllowRemoveReq`). -/
structure Config where
  dbSnapshot : Bool
  allowArchiveReq : Bool
  allowRemoveReq : Bool
deriving DecidableEq, Repr

/-- `_updateSnapshot(ngamsCfgObj)`: the snapshot is written only when the
server accepts archive or remove requests. -/
def _updateSnapshot (ngamsCfgObj : Config) : Bool :=
  ngamsCfgObj.allowArchiveReq || ngamsCfgObj.allowRemoveReq

/-- The mode a bsddb store is opened with (`"w"`, `"r"` or `"c"`). -/
inductive DbmMode where
  | w : DbmMode
  | r : DbmMode
  | c : DbmMode
deriving DecidableEq, Repr

/-- `_openDbSnapshot(ngamsCfgObj, mtPt)`: an existing snapshot file is
opened read-write when the snapshot may be updated and read-only otherwise;
a missing file is created when the snapshot may be updated, and otherwise
`None` is returned (the check cannot be carried out). -/
def _openDbSnapshot (ngamsCfgObj : Config) (snapshotFileExists : Bool) : Option DbmMode :=
  if snapshotFileExists then
    if _updateSnapshot ngamsCfgObj then some DbmMode.w
    else some DbmMode.r
  else
    if _updateSnapshot ngamsCfgObj then some DbmMode.c
    else none

/-- One folding step of Python's `posixpath.normpath` component scan. -/
def normpathStep (isAbs : Bool) (stack : List String) (comp : String) : List String :=
  if comp = "" || comp = "." then stack
  else if comp = ".." then
    if !stack.isEmpty && stack.getLast? ≠ some ".." then stack.dropLast
    else if isAbs then stack
    else stack ++ [".."]
  else stack ++ [comp]

/-- Split a character list at every `/`, keeping empty components (the
behaviour of `"…".split("/")`). -/
def splitSlash : List Char → List (List Char)
  | [] => [[]]
  | c :: rest =>
    let r := splitSlash rest
    if c = '/' then [] :: r
    else
      match r with
      | [] => [[c]]
      | h :: t => (c :: h) :: t

/-- Rejoin path components with `/` separators. -/
def joinSlash : List String → String
  | [] => ""
  | [x] => x
  | x :: y :: rest => x ++ "/" ++ joinSlash (y :: rest)

/-- `os.path.normpath` for the POSIX paths built by the janitor. -/
def os_path_normpath (p : String) : String :=
  if p = "" then "." else
  let isAbs := startsWithL ['/'] p.data
  let dslash := startsWithL ['/', '/'] p.data && !startsWithL ['/', '/', '/'] p.data
  let comps := (splitSlash p.data).map (fun l => (⟨l⟩ : String))
  let body := joinSlash (comps.foldl (normpathStep isAbs) [])
  if isAbs then (if dslash then "//" ++ body else "/" ++ body)
  else if body = "" then "." else body

/-- A row of the `ngas_files` table. -/
abbrev DbRow := List String

def rowDiskId (r : DbRow) : String := (r.get? NGAS_FILES_DISK_ID).getD ""

def rowFileId (r : DbRow) : String := (r.get? NGAS_FILES_FILE_ID).getD ""

def rowFileVer (r : DbRow) : String := (r.get? NGAS_FILES_FILE_VER).getD ""

/-- Modelled from the spec: `dumpFileInfoList(diskId)` — the database's
file records for one disk (§6: `dumpFileRecords(diskId)`). -/
def dumpFileInfoList (db : List DbRow) (diskId : String) : List DbRow :=
  db.filter (fun r => decide (rowDiskId r = diskId))

/-- Modelled from the spec: `dbConObj.fileInDb(diskId, fileId, fileVersion)`
(§6: `exists(diskId, fileId, fileVersion)`). -/
def fileInDb (db : List DbRow) (diskId fileId fileVersion : String) : Bool :=
  db.any (fun r => decide (rowDiskId r = diskId ∧ rowFileId r = fileId ∧
    rowFileVer r = fileVersion))

/-- Modelled from the spec: `dbConObj.deleteFileInfo(...)` (§6:
`delete(diskId, fileId, fileVersion)`). -/
def deleteFileInfo (db : List DbRow) (diskId fileId fileVersion : String) : List DbRow :=
  db.filter (fun r => decide (¬ (rowDiskId r = diskId ∧ rowFileId r = fileId ∧
    rowFileVer r = fileVersion)))

/-- Modelled from the spec: `fileInfoObj.write(hostId, db, ...)` — write the
record into `ngas_files`, replacing any row with the same key (§6:
`write(record)`, idempotent upsert). -/
def dbWriteFileInfo (db : List DbRow) (f : FileInfoObj) : List DbRow :=
  deleteFileInfo db f.getDiskId f.getFileId f.getFileVersion ++ [f.genSqlResult]

/-- `_delFileEntry(hostId, dbConObj, fileInfoObj)`: delete the record if it
is in the DB, otherwise do nothing. -/
def _delFileEntry (db : List DbRow) (fileInfoObj : FileInfoObj) : List DbRow :=
  if fileInDb db fileInfoObj.getDiskId fileInfoObj.getFileId fileInfoObj.getFileVersion then
    deleteFileInfo db fileInfoObj.getDiskId fileInfoObj.getFileId fileInfoObj.getFileVersion
  else db

def snapsLookup (s : List (String × Dbm)) (k : String) : Option Dbm :=
  match s with
  | [] => none
  | (k', v) :: rest => if k' = k then some v else snapsLookup rest k

def snapsPut (s : List (String × Dbm)) (k : String) (v : Dbm) : List (String × Dbm) :=
  match s with
  | [] => [(k, v)]
  | (k', v') :: rest => if k' = k then (k, v) :: rest else (k', v') :: snapsPut rest k v

def lfPut (l : List (String × FileInfoObj)) (k : String) (v : FileInfoObj) :
    List (String × FileInfoObj) :=
  match l with
  | [] => [(k, v)]
  | (k', v') :: rest => if k' = k then (k, v) :: rest else (k', v') :: lfPut rest k v

/-- `ngamsDbm.add` on the deletion DBM: record a key scheduled for removal. -/
def delAdd (l : List String) (k : String) : List String :=
  if k ∈ l then l else l ++ [k]

/-- The mutable state threaded through the janitor's reconciliation and
change-cache code: the central database, the per-disk persistent snapshot
files, the cross-disk lost-file DBM, the set of currently open store
handles, the number of stop checks performed, and the working fields of
the disk currently being processed. -/
structure RSt where
  db : List DbRow
  snapshots : List (String × Dbm)
  lostFileRefs : List (String × FileInfoObj)
  openHandles : List String
  clock : Nat
  snapshotDbm : Dbm
  snapMode : DbmMode
  tmpSnapshotDbm : Dbm
  snapshotDelDbm : List String
  count : Nat
  varSnapOpen : Bool
  varTmpOpen : Bool
deriving DecidableEq, Repr

/-- The collaborators of the janitor that stay fixed during a pass: the
configuration, the host id, the filesystem (the set of existing paths), the
fault model for store opening, and the stop event (indexed by how many stop
checks have happened). -/
structure Env where
  cfg : Config
  hostId : String
  fs : List String
  openErrs : List String
  stopEvt : Nat → Bool

/-- `checkStopJanitorThread(stopEvt)`: raise the cancellation signal when
the stop event is set at this suspension point. -/
def checkStopJ (env : Env) (st : RSt) : Except JExc Unit × RSt :=
  if env.stopEvt st.clock then (Except.error JExc.stop, { st with clock := st.clock + 1 })
  else (Except.ok (), { st with clock := st.clock + 1 })

/-- A write to the persistent snapshot store: a bsddb handle opened
read-only raises on writes. -/
def snapshotPut (st : RSt) (k : String) (v : SnapVal) : Except JExc Unit × RSt :=
  if st.snapMode = DbmMode.r then (Except.error (JExc.err "DBAccessError"), st)
  else (Except.ok (), { st with snapshotDbm := dbmPut st.snapshotDbm k v })

/-- A deletion from the persistent snapshot store (same read-only rule). -/
def snapshotDelKey (st : RSt) (k : String) : Except JExc Unit × RSt :=
  if st.snapMode = DbmMode.r then (Except.error (JExc.err "DBAccessError"), st)
  else (Except.ok (), { st with snapshotDbm := dbmDel st.snapshotDbm k })

/-- One row of lines 537–545: key the row and encode it into the temporary
DB-derived store. -/
def buildTmpStep (st : RSt) (row : DbRow) : RSt :=
  let fileKey := _genFileKeyRow row
  let p := _encFileInfo st.tmpSnapshotDbm row
  { st with tmpSnapshotDbm := _addInDbm p.2 fileKey (SnapVal.enc p.1) }

/-- Lines 531–552: build the temporary DB-derived snapshot store from the
database's rows for the disk (each row is keyed and encoded into the fresh
temporary store), with a stop check after every row. -/
def buildTmpLoop (env : Env) (rows : List DbRow) (st : RSt) : Except JExc Unit × RSt :=
  match rows with
  | [] => (Except.ok (), st)
  | row :: rest =>
    match checkStopJ env (buildTmpStep st row) with
    | (Except.ok _, st) => buildTmpLoop env rest st
    | (Except.error e, st) => (Except.error e, st)

/-- Lines 632–640 / 730–738: the per-entry bookkeeping at the end of a loop
body — count the entry and, every 100 entries, sync the stores (a no-op on
the logical content) and check for the stop signal. -/
def passTail (env : Env) (st : RSt) : Except JExc Unit × RSt :=
  let st := { st with count := st.count + 1 }
  if st.count % 100 = 0 then checkStopJ env st
  else (Except.ok (), st)

/-- Lines 581–649 (Pass A): process one entry of the persistent snapshot
against the temporary DB-derived store, the filesystem and the DB.  A
decode failure (`ok none`) is the source's `continue`, which also skips the
count/stop block. -/
def passAStep (env : Env) (mtPt : String) (st : RSt) (kv : String × SnapVal) :
    Except JExc Unit × RSt :=
  let key := kv.1
  let pickleValue := kv.2
  if strFind key "___" then
    let st := if ¬ dbmHasKey st.tmpSnapshotDbm key then
        { st with tmpSnapshotDbm := dbmPut st.tmpSnapshotDbm key pickleValue }
      else st
    passTail env st
  else
    match pickleValue with
    | SnapVal.enc encDic =>
      match _encFileInfo2Obj st.snapshotDbm encDic with
      | Except.error e => (Except.error e, st)
      | Except.ok none => (Except.ok (), st)
      | Except.ok (some tmpFileObj) =>
        let complFilename := os_path_normpath (mtPt ++ "/" ++ tmpFileObj.getFilename)
        if dbmHasKey st.tmpSnapshotDbm key then
          let st := if ¬ env.fs.contains complFilename then
              let fileKey := genFileKey (some tmpFileObj.getDiskId) tmpFileObj.getFileId
                  tmpFileObj.getFileVersion
              let lostObj := tmpFileObj.setTag complFilename
              { st with lostFileRefs := lfPut st.lostFileRefs fileKey lostObj }
            else st
          passTail env st
        else
          -- the source decodes the record a second time here (lines
          -- 609–612); the decode is pure, so the result is the same object
          if env.fs.contains complFilename then
            let st := { st with
              db := dbWriteFileInfo st.db tmpFileObj
              tmpSnapshotDbm := dbmPut st.tmpSnapshotDbm key pickleValue }
            passTail env st
          else
            let st := if _updateSnapshot env.cfg then
                { st with snapshotDelDbm := delAdd st.snapshotDelDbm key }
              else st
            passTail env st
    | _ => (Except.error (JExc.err "AttributeError"), st)

def passALoop (env : Env) (mtPt : String) (entries : List (String × SnapVal))
    (st : RSt) : Except JExc Unit × RSt :=
  match entries with
  | [] => (Except.ok (), st)
  | e :: rest =>
    match passAStep env mtPt st e with
    | (Except.ok _, st) => passALoop env mtPt rest st
    | (Except.error ex, st) => (Except.error ex, st)

/-- Lines 661–671: apply the accumulated deletion set to the persistent
snapshot, skipping keys that contain a double underscore. -/
def delSnapshotLoop (keys : List String) (st : RSt) : Except JExc Unit × RSt :=
  match keys with
  | [] => (Except.ok (), st)
  | key :: rest =>
    if strFind key "__" then delSnapshotLoop rest st
    else
      match snapshotDelKey st key with
      | (Except.ok _, st) => delSnapshotLoop rest st
      | (Except.error e, st) => (Except.error e, st)

/-- A snapshot write followed by the count/sync/stop block; an exception
raised by the write propagates. -/
def putThenTail (env : Env) (st : RSt) (k : String) (v : SnapVal) :
    Except JExc Unit × RSt :=
  match snapshotPut st k v with
  | (Except.ok _, st) => passTail env st
  | (Except.error e, st) => (Except.error e, st)

/-- Lines 697–746 (Pass B): process one entry of the temporary DB-derived
store against the persistent snapshot, the filesystem and the DB. -/
def passBStep (env : Env) (mtPt : String) (st : RSt) (kv : String × SnapVal) :
    Except JExc Unit × RSt :=
  let key := kv.1
  let pickleValue := kv.2
  if strFind key "___" then
    if ¬ dbmHasKey st.snapshotDbm key then
      -- this write is not guarded by `_updateSnapshot` in the source
      putThenTail env st key pickleValue
    else passTail env st
  else
    if ¬ dbmHasKey st.snapshotDbm key then
      match pickleValue with
      | SnapVal.enc encDic =>
        match _encFileInfo2Obj st.tmpSnapshotDbm encDic with
        | Except.error e => (Except.error e, st)
        | Except.ok none => (Except.ok (), st)
        | Except.ok (some tmpFileObj) =>
          let complFilename := os_path_normpath (mtPt ++ "/" ++ tmpFileObj.getFilename)
          if env.fs.contains complFilename then
            if _updateSnapshot env.cfg then putThenTail env st key pickleValue
            else passTail env st
          else
            let st := { st with db := _delFileEntry st.db tmpFileObj }
            passTail env st
      | _ => (Except.error (JExc.err "AttributeError"), st)
    else
      if _updateSnapshot env.cfg then putThenTail env st key pickleValue
      else passTail env st

def passBLoop (env : Env) (mtPt : String) (entries : List (String × SnapVal))
    (st : RSt) : Except JExc Unit × RSt :=
  match entries with
  | [] => (Except.ok (), st)
  | e :: rest =>
    match passBStep env mtPt st e with
    | (Except.ok _, st) => passBLoop env mtPt rest st
    | (Except.error ex, st) => (Except.error ex, st)

/-- `snapshotDbm = _openDbSnapshot(cfg, mtPt)` together with the handle
bookkeeping: a faulted mount point raises, a missing file with a read-only
configuration yields `none` (disk skipped), otherwise the store content is
loaded and the handle recorded as open. -/
def openSnapshotVars (env : Env) (mtPt : String) (st : RSt) :
    Except JExc (Option DbmMode) × RSt :=
  if env.openErrs.contains mtPt then (Except.error (JExc.err "bsddb open failed"), st)
  else
    let snapshotFileExists := (snapsLookup st.snapshots mtPt).isSome
    match _openDbSnapshot env.cfg snapshotFileExists with
    | none => (Except.ok none, st)
    | some mode =>
      (Except.ok (some mode),
       { st with
         snapshotDbm := (snapsLookup st.snapshots mtPt).getD []
         snapMode := mode
         varSnapOpen := true
         openHandles := st.openHandles ++ ["snapshot:" ++ mtPt] })

/-- Lines 752–757 (the `finally` block): close whichever of the two store
handles of the current disk is open; closing the persistent snapshot
persists its content to the snapshot file. -/
def closeSnapshotVars (mtPt : String) (st : RSt) : RSt :=
  let st := if st.varSnapOpen then
      { st with
        snapshots := snapsPut st.snapshots mtPt st.snapshotDbm
        openHandles := st.openHandles.filter (fun h => h ≠ "snapshot:" ++ mtPt)
        varSnapOpen := false }
    else st
  if st.varTmpOpen then
    { st with
      openHandles := st.openHandles.filter (fun h => h ≠ "tmpSnapshot:" ++ mtPt)
      varTmpOpen := false }
  else st

/-- `tmpSnapshotDbm = bsddb.hashopen(tmpSnapshotDbmName, "c")` (line 533):
open the fresh temporary DB-derived store and record its handle. -/
def openTmpVars (mtPt : String) (st : RSt) : RSt :=
  { st with
    tmpSnapshotDbm := []
    varTmpOpen := true
    openHandles := st.openHandles ++ ["tmpSnapshot:" ++ mtPt] }

/-- Lines 524–751 once both stores are open: build the temporary
DB-derived store from the DB dump, run Pass A over the persistent
snapshot's entries, apply the deletion set, and run Pass B over the
temporary store's entries. -/
def reconcileOpened (env : Env) (mtPt diskId : String) (st : RSt) :
    Except JExc Unit × RSt :=
  match buildTmpLoop env (dumpFileInfoList st.db diskId) st with
  | (Except.error e, st) => (Except.error e, st)
  | (Except.ok _, st) =>
    let st := { st with snapshotDelDbm := [], count := 0 }
    match passALoop env mtPt st.snapshotDbm st with
    | (Except.error e, st) => (Except.error e, st)
    | (Except.ok _, st) =>
      match delSnapshotLoop st.snapshotDelDbm st with
      | (Except.error e, st) => (Except.error e, st)
      | (Except.ok _, st) =>
        let st := { st with count := 0 }
        match passBLoop env mtPt st.tmpSnapshotDbm st with
        | (Except.error e, st) => (Except.error e, st)
        | (Except.ok _, st) => (Except.ok (), st)

/-- The `try` block of lines 502–751 for one disk: open the persistent
snapshot (skipping the disk when unavailable), open the fresh temporary
store, and reconcile. -/
def processDiskBody (env : Env) (mtPt diskId : String) (st : RSt) :
    Except JExc Unit × RSt :=
  match openSnapshotVars env mtPt st with
  | (Except.error e, st) => (Except.error e, st)
  | (Except.ok none, st) => (Except.ok (), st)
  | (Except.ok (some _), st) =>
    reconcileOpened env mtPt diskId (openTmpVars mtPt st)

/-- One disk of the reconciliation sweep: the `try` body followed
unconditionally by the `finally` block. -/
def processDisk (env : Env) (mtPt diskId : String) (st : RSt) :
    Except JExc Unit × RSt :=
  let r := processDiskBody env mtPt diskId st
  (r.1, closeSnapshotVars mtPt r.2)

/-- Lines 495–757: the sweep over the mounted disks, with a stop check
before each disk.  There is no `except` clause around the per-disk body, so
any error propagates and ends the sweep. -/
def sweepLoop (env : Env) (disks : List (String × String)) (st : RSt) :
    Except JExc Unit × RSt :=
  match disks with
  | [] => (Except.ok (), st)
  | (mtPt, diskId) :: rest =>
    match checkStopJ env st with
    | (Except.error e, st) => (Except.error e, st)
    | (Except.ok _, st) =>
      match processDisk env mtPt diskId st with
      | (Except.ok _, st) => sweepLoop env rest st
      | (Except.error e, st) => (Except.error e, st)

/-- The plain-text lost-files report of lines 762–795: timestamp, host id,
count, and one line of disk id / file id / file version / expected path per
lost file. -/
structure LostReport where
  timeStamp : String
  hostId : String
  noOfLostFiles : Nat
  reportLines : List (String × String × String × String)
deriving DecidableEq, Repr

def genLostFilesReport (timeStamp hostId : String)
    (lost : List (String × FileInfoObj)) : LostReport :=
  { timeStamp := timeStamp
    hostId := hostId
    noOfLostFiles := lost.length
    reportLines := lost.map (fun p =>
      (p.2.getDiskId, p.2.getFileId, p.2.getFileVersion, p.2.getTag)) }

/-- Strict lexicographic order on character lists, by code point. -/
def lexLt : List Char → List Char → Bool
  | [], [] => false
  | [], _ :: _ => true
  | _ :: _, [] => false
  | a :: as, b :: bs =>
    if a.toNat < b.toNat then true
    else if b.toNat < a.toNat then false
    else lexLt as bs

def strLtB (a b : String) : Bool := lexLt a.data b.data

/-- Stable insertion of one disk pair in ascending lexicographic order. -/
def insertLex (x : String × String) : List (String × String) → List (String × String)
  | [] => [x]
  | y :: rest =>
    if strLtB x.1 y.1 || (decide (x.1 = y.1) &&
        (strLtB x.2 y.2 || decide (x.2 = y.2))) then x :: y :: rest
    else y :: insertLex x rest

/-- `[mtPt, diskId].sort()` on the disk list (lexicographic). -/
def diskListSort (l : List (String × String)) : List (String × String) :=
  l.foldr insertLex []

/-- `checkUpdateDbSnapShots(srvObj, stopEvt)`: full reconciliation of every
mounted disk, followed — only when the sweep finishes without an exception —
by the lost-files notification (`some report` embeds handing the rendered
report to the notification collaborator; `none` means no report is sent). -/
def checkUpdateDbSnapShots (env : Env) (timeStamp : String)
    (tmpDiskIdMtPtList : List (String × String)) (st0 : RSt) :
    Except JExc Unit × RSt × Option LostReport :=
  if ¬ env.cfg.dbSnapshot then (Except.ok (), st0, none)
  else
    let diskIdMtPtList := diskListSort (tmpDiskIdMtPtList.map (fun p => (p.2, p.1)))
    let st0 := { st0 with lostFileRefs := [] }
    match sweepLoop env diskIdMtPtList st0 with
    | (Except.error e, st) => (Except.error e, st, none)
    | (Except.ok _, st) =>
      if st.lostFileRefs.length ≠ 0 then
        (Except.ok (), st, some (genLostFilesReport timeStamp env.hostId st.lostFileRefs))
      else (Except.ok (), st, none)

/-- Modelled from the spec: the operation tags of a change-cache entry
(`ngamsCore.NGAMS_DB_CH_FILE_INSERT` / `..._UPDATE` / `..._DELETE`;
§3 ChangeCacheEntry: `operation ∈ {insert, update, delete}`). -/
def NGAMS_DB_CH_FILE_INSERT : String := "FILE-INSERT"

def NGAMS_DB_CH_FILE_UPDATE : String := "FILE-UPDATE"

def NGAMS_DB_CH_FILE_DELETE : String := "FILE-DELETE"

def FileInfoObj.setDiskId (f : FileInfoObj) (d : String) : FileInfoObj :=
  { f with row := f.row.set NGAS_FILES_DISK_ID (some d) }

def FileInfoObj.setFileId (f : FileInfoObj) (i : String) : FileInfoObj :=
  { f with row := f.row.set NGAS_FILES_FILE_ID (some i) }

def FileInfoObj.setFileVersion (f : FileInfoObj) (v : String) : FileInfoObj :=
  { f with row := f.row.set NGAS_FILES_FILE_VER (some v) }

/-- Modelled from the spec: a freshly constructed `ngamsFileInfo()` with no
fields set. -/
def emptyFileInfoObj : FileInfoObj :=
  { row := List.replicate (NGAS_FILES_CONTAINER_ID + 1) none, tag := "" }

/-- The unpickled content of a change-cache file (lines 858–875): a plain
list means a deletion, a file info object carries its operation in its tag,
and anything else is assumed to be a file list object. -/
inductive CacheObj where
  | listObj : String → String → String → CacheObj
  | infoObj : FileInfoObj → CacheObj
  | fileListObj : String → List FileInfoObj → CacheObj
deriving DecidableEq, Repr

/-- A change-cache pickle file: its name (processing is in filename-sort
order), whether it has zero size (crash-truncated), and its content. -/
structure CacheFile where
  name : String
  zeroSize : Bool
  obj : CacheObj
deriving DecidableEq, Repr

/-- Lines 859–875: derive the file-info objects and the operation from a
cache object. -/
def cacheEntryData (cacheStatObj : CacheObj) : List FileInfoObj × String :=
  match cacheStatObj with
  | CacheObj.listObj d f v =>
    ([((emptyFileInfoObj.setDiskId d).setFileId f).setFileVersion v],
     NGAMS_DB_CH_FILE_DELETE)
  | CacheObj.infoObj f => ([f], f.getTag)
  | CacheObj.fileListObj comment objs => (objs, comment)

/-- Lines 878–892: apply one file-info object of a cache entry to the
snapshot store and the database.  The record is always encoded first (which
may register name-dictionary entries in the snapshot store); insert/update
writes the encoded record into the snapshot and the record into the DB;
delete removes the snapshot key if present and the DB record if present;
an unknown operation does nothing. -/
def applyCacheOp (st : RSt) (tmpFileInfoObj : FileInfoObj) (operation : String)
    (fileKey : String) (p : List (Nat × String) × Dbm) : RSt :=
  let st := { st with snapshotDbm := p.2 }
  if operation = NGAMS_DB_CH_FILE_INSERT ∨ operation = NGAMS_DB_CH_FILE_UPDATE then
    { st with
      snapshotDbm := _addInDbm st.snapshotDbm fileKey (SnapVal.enc p.1)
      db := dbWriteFileInfo st.db tmpFileInfoObj }
  else if operation = NGAMS_DB_CH_FILE_DELETE then
    let st := if dbmHasKey st.snapshotDbm fileKey then
        { st with snapshotDbm := dbmDel st.snapshotDbm fileKey }
      else st
    { st with db := _delFileEntry st.db tmpFileInfoObj }
  else st

def applyCacheFileInfo (st : RSt) (tmpFileInfoObj : FileInfoObj)
    (operation : String) : RSt :=
  applyCacheOp st tmpFileInfoObj operation (_genFileKeyObj tmpFileInfoObj)
    (_encFileInfo st.snapshotDbm tmpFileInfoObj.genSqlResult)

def applyCacheObjList (st : RSt) (objs : List FileInfoObj) (operation : String) : RSt :=
  match objs with
  | [] => st
  | o :: rest => applyCacheObjList (applyCacheFileInfo st o operation) rest operation

/-- Lines 851–904: the loop over the sorted cache files, with a stop check
per file, zero-size files skipped (and removed), and a further stop check
every 100 processed files. -/
def cacheFilesLoop (env : Env) (files : List CacheFile) (st : RSt) :
    Except JExc Unit × RSt :=
  match files with
  | [] => (Except.ok (), st)
  | cf :: rest =>
    match checkStopJ env st with
    | (Except.error e, st) => (Except.error e, st)
    | (Except.ok _, st) =>
      if cf.zeroSize then cacheFilesLoop env rest st
      else
        let data := cacheEntryData cf.obj
        let st := applyCacheObjList st data.1 data.2
        let st := { st with count := st.count + 1 }
        if st.count = 100 then
          let st := { st with count := 0 }
          match checkStopJ env st with
          | (Except.error e, st) => (Except.error e, st)
          | (Except.ok _, st) => cacheFilesLoop env rest st
        else cacheFilesLoop env rest st

/-- `checkDbChangeCache(srvObj, diskId, diskMtPt, stopEvt)`: merge the
disk's pending change-cache files into its snapshot store and the DB.  A
no-op when the snapshot feature is off or the snapshot may not be updated;
otherwise the snapshot store is opened (a missing store skips the disk) and
the sorted cache files are applied, with the handle closed on every exit
path by the `finally` block of lines 920–922. -/
def checkDbChangeCache (env : Env) (diskId diskMtPt : String)
    (cacheFiles : List CacheFile) (st : RSt) : Except JExc Unit × RSt :=
  if ¬ env.cfg.dbSnapshot then (Except.ok (), st)
  else if ¬ _updateSnapshot env.cfg then (Except.ok (), st)
  else
    let body :=
      match openSnapshotVars env diskMtPt st with
      | (Except.error e, st) => (Except.error e, st)
      | (Except.ok none, st) => (Except.ok (), st)
      | (Except.ok (some _), st) =>
        let tmpCacheFiles := cacheFiles.mergeSort (fun a b => a.name ≤ b.name)
        let st := { st with count := 0 }
        cacheFilesLoop env tmpCacheFiles st
    (body.1, closeSnapshotVars diskMtPt body.2)

/-- The result of running one janitor task on the server state: normal
completion, an ordinary exception, or the cancellation signal
(`StopJanitorThreadException`). -/
inductive TaskResult (σ : Type) where
  | ok : σ → TaskResult σ
  | err : σ → String → TaskResult σ
  | stop : σ → TaskResult σ

/-- Run the fixed task sequence of a janitor cycle in order, recording the
indices of the tasks that were started; the first exception (of either
kind) ends the sequence. -/
def runTasksAux : List (σ → TaskResult σ) → σ → Nat → List Nat →
    TaskResult σ × List Nat
  | [], s, _, executed => (TaskResult.ok s, executed)
  | t :: rest, s, i, executed =>
    match t s with
    | TaskResult.ok s' => runTasksAux rest s' (i + 1) (executed ++ [i])
    | TaskResult.err s' m => (TaskResult.err s' m, executed ++ [i])
    | TaskResult.stop s' => (TaskResult.stop s', executed ++ [i])

/-- How one `JanitorCycle(...)` invocation ends: all tasks completed; an
ordinary exception was caught by the single cycle-level handler (lines
1157–1163), logged via `alert`, ending the cycle; or the cancellation
signal was re-raised (lines 1155–1156). -/
inductive CycleOutcome (σ : Type) where
  | completed : σ → List Nat → CycleOutcome σ
  | errorLogged : σ → List Nat → String → CycleOutcome σ
  | stopped : σ → List Nat → CycleOutcome σ

/-- `JanitorCycle(srvObj, stopEvt, ...)` (lines 979–1163): a stop check,
then the fixed sequence of maintenance tasks, the whole body wrapped in one
`try` whose handlers re-raise `StopJanitorThreadException` and log any
other exception.  (The trailing suspension phase does not run further
tasks and is not modelled.) -/
def JanitorCycle (ts : List (σ → TaskResult σ)) (stopSet : Bool) (s : σ) :
    CycleOutcome σ :=
  if stopSet then CycleOutcome.stopped s []
  else
    match runTasksAux ts s 0 [] with
    | (TaskResult.ok s', ex) => CycleOutcome.completed s' ex
    | (TaskResult.err s' m, ex) => CycleOutcome.errorLogged s' ex m
    | (TaskResult.stop s', ex) => CycleOutcome.stopped s' ex

/-- The fields of `RSt` owned by the open/close bookkeeping: the handle
list, the two variable flags, and the persistent snapshot files.  The loop
bodies of the passes never touch them. -/
def sameCore (st st' : RSt) : Prop :=
  st'.openHandles = st.openHandles ∧ st'.varSnapOpen = st.varSnapOpen ∧
  st'.varTmpOpen = st.varTmpOpen ∧ st'.snapshots = st.snapshots

/-- A configuration with archive requests allowed (snapshot writable). -/
def cfgRW : Config := { dbSnapshot := true, allowArchiveReq := true, allowRemoveReq := false }

/-- A configuration permitting neither archive nor remove requests
(read-only server). -/
def cfgRO : Config := { dbSnapshot := true, allowArchiveReq := false, allowRemoveReq := false }

def mkEnv (cfg : Config) (fs : List String) (openErrs : List String) : Env :=
  { cfg := cfg, hostId := "host1", fs := fs, openErrs := openErrs, stopEvt := fun _ => false }

/-- The idle janitor state: empty database, no snapshot files, no open
handles. -/
def st0 : RSt :=
  { db := [], snapshots := [], lostFileRefs := [], openHandles := [], clock := 0,
    snapshotDbm := [], snapMode := DbmMode.r, tmpSnapshotDbm := [], snapshotDelDbm := [],
    count := 0, varSnapOpen := false, varTmpOpen := false }

/-- A full `ngas_files` row for concrete checks. -/
def sampleRow (diskId fileId fileVer filename : String) : DbRow :=
  [diskId, filename, fileId, fileVer, "fits", "100", "100", "0", "2020-01-01", "0",
   "chk", "pi", "OK", "2020-01-01", "0.1", ""]

/-- The encoded form of the sample row over an empty store. -/
def encP : List (Nat × String) × Dbm := _encFileInfo [] (sampleRow "d1" "f1" "1" "data/f1")

/-- A snapshot store holding only the column-name dictionary of the sample
row. -/
def dictStore : Dbm := encP.2

/-- A snapshot store holding the dictionary plus the encoded entry for
`(f1, 1)` under its snapshot key. -/
def storeWithEntry : Dbm := _addInDbm encP.2 "f1_1" (SnapVal.enc encP.1)

/-- A maintenance task that completes normally. -/
def taskOk : Nat → TaskResult Nat := fun s => TaskResult.ok (s + 1)

/-- A maintenance task that raises an ordinary (non-cancellation)
exception. -/
def taskFail : Nat → TaskResult Nat := fun s => TaskResult.err s "boom"

/-- A maintenance task in which the cancellation signal fires. -/
def taskStop : Nat → TaskResult Nat := fun s => TaskResult.stop s

/-- A janitor state holding identical one-entry snapshot stores for the
mount points `/m1` and `/m2`. -/
def wC3 : RSt :=
  { st0 with snapshots := [("/m1", storeWithEntry), ("/m2", storeWithEntry)] }

/-- On a writable handle the deferred-deletion loop completes and removes
from the persistent snapshot exactly the scheduled keys that do not
contain a double underscore; it never touches the DB. -/
def delApply (keys : List String) (d : Dbm) : Dbm :=
  keys.foldl (fun d k => if strFind k "__" then d else dbmDel d k) d

/-- The object decoded from the sample row's encoded record. -/
def objP : FileInfoObj :=
  { row := ((sampleRow "d1" "f1" "1" "data/f1").take 15).map some ++ [none]
    tag := "" }

/-- A row whose snapshot key `a__b_1` contains a double underscore without
being an administrative key. -/
def rowC1 : DbRow := sampleRow "d1" "a__b" "1" "data/ab"

def encC1 : List (Nat × String) × Dbm := _encFileInfo [] rowC1

/-- A snapshot store for `/m1` holding the double-underscore entry. -/
def wC1 : RSt :=
  { st0 with snapshots := [("/m1", _addInDbm encC1.2 "a__b_1" (SnapVal.enc encC1.1))] }

/-- DB row, snapshot store and filesystem for the read-only Pass B
scenario: the DB already has the record, the persistent snapshot only has
the name dictionary, and the file is present on disk. -/
def wC2 : RSt :=
  { st0 with
    db := [sampleRow "d1" "f1" "1" "data/f1"]
    snapshots := [("/m1", dictStore)] }

/-- The state for the lost-file scenario: the DB has the sample record,
the persistent snapshot of `/m1` has its entry, and (with an empty
filesystem in the environment) the file is absent from its expected
path. -/
def wC8 : RSt :=
  { st0 with
    db := [sampleRow "d1" "f1" "1" "data/f1"]
    snapshots := [("/m1", storeWithEntry)] }

/-- The state after the lost-file sweep. -/
def stC8 : RSt :=
  (sweepLoop (mkEnv cfgRW [] []) (diskListSort ([("d1", "/m1")].map (fun p => (p.2, p.1))))
    { wC8 with lostFileRefs := [] }).2

/-- The mid-pass state for the lost-branch step: both stores hold the
sample entry. -/
def stpC8 : RSt :=
  { st0 with
    snapshotDbm := storeWithEntry
    tmpSnapshotDbm := storeWithEntry }

/-- Decidable equality for the janitor's exception-or-unit results. -/
instance : DecidableEq (Except JExc Unit) := fun a b =>
  match a, b with
  | Except.ok (), Except.ok () => isTrue rfl
  | Except.error x, Except.error y =>
    if h : x = y then isTrue (by rw [h])
    else isFalse (fun hc => h (by injection hc))
  | Except.ok _, Except.error _ => isFalse (fun hc => Except.noConfusion hc)
  | Except.error _, Except.ok _ => isFalse (fun hc => Except.noConfusion hc)

/-- The file-info object carried by a change-cache delete entry for
`(d1, f1, 1)`. -/
def objC7 : FileInfoObj :=
  ((emptyFileInfoObj.setDiskId "d1").setFileId "f1").setFileVersion "1"

lemma charVal_digitChar (d : Nat) (h : d < 10) :
    charVal (Char.ofNat (48 + d)) = d := by
  interval_cases d <;> decide

lemma charsVal_append_singleton (l : List Char) (c : Char) :
    charsVal (l ++ [c]) = charsVal l * 10 + charVal c := by
  simp [charsVal, List.foldl_append]

lemma charsVal_natCharsAux : ∀ (fuel n : Nat), n < fuel →
    charsVal (natCharsAux fuel n) = n := by
  intro fuel
  induction fuel with
  | zero => intro n h; omega
  | succ f ih =>
    intro n hn
    rw [natCharsAux]
    by_cases h : n < 10
    · simp only [h, if_true]
      simp [charsVal, charVal_digitChar n h]
    · simp only [h, if_false]
      have hdiv : n / 10 < f := by
        have h1 : n / 10 < n := Nat.div_lt_self (by omega) (by omega)
        omega
      rw [charsVal_append_singleton, ih (n / 10) hdiv,
        charVal_digitChar (n % 10) (Nat.mod_lt _ (by omega))]
      omega

lemma charsVal_natChars (n : Nat) : charsVal (natChars n) = n :=
  charsVal_natCharsAux (n + 1) n (by omega)

lemma natToStr_injective : Function.Injective natToStr := by
  intro m n h
  have hd : natChars m = natChars n := congrArg String.data h
  have := charsVal_natChars m
  rw [hd, charsVal_natChars n] at this
  omega

lemma string_append_cancel_left {a b c : String} (h : a ++ b = a ++ c) : b = c := by
  have hd : a.data ++ b.data = a.data ++ c.data := by
    have := congrArg String.data h
    simpa using this
  have := List.append_cancel_left hd
  cases b; cases c; exact congrArg String.mk this

/-- Two distinct tags of the same length generate disjoint key namespaces. -/
lemma tag_append_ne {t₁ t₂ : String} (hlen : t₁.data.length = t₂.data.length)
    (hne : t₁.data ≠ t₂.data) (a b : String) : t₁ ++ a ≠ t₂ ++ b := by
  intro h
  have hd : t₁.data ++ a.data = t₂.data ++ b.data := by
    have := congrArg String.data h
    simpa using this
  exact hne (List.append_inj_left hd hlen)

lemma id2nm_ne_nm2id (a b : String) :
    NGAMS_SN_SH_ID2NM_TAG ++ a ≠ NGAMS_SN_SH_NM2ID_TAG ++ b := by
  exact tag_append_ne (by decide) (by decide) a b

lemma id2nm_key_inj {a b : String}
    (h : NGAMS_SN_SH_ID2NM_TAG ++ a = NGAMS_SN_SH_ID2NM_TAG ++ b) : a = b :=
  string_append_cancel_left h

lemma nm2id_key_inj {a b : String}
    (h : NGAMS_SN_SH_NM2ID_TAG ++ a = NGAMS_SN_SH_NM2ID_TAG ++ b) : a = b :=
  string_append_cancel_left h

lemma mapcount_ne_id2nm (a : String) :
    NGAMS_SN_SH_MAP_COUNT ≠ NGAMS_SN_SH_ID2NM_TAG ++ a := by
  intro h
  have hd : NGAMS_SN_SH_MAP_COUNT.data =
      NGAMS_SN_SH_ID2NM_TAG.data ++ a.data := by
    have := congrArg String.data h
    simpa using this
  have htake : NGAMS_SN_SH_MAP_COUNT.data.take 11 = NGAMS_SN_SH_ID2NM_TAG.data := by
    rw [hd]
    have : NGAMS_SN_SH_ID2NM_TAG.data.length = 11 := by decide
    rw [show (11 : Nat) = NGAMS_SN_SH_ID2NM_TAG.data.length from this.symm]
    exact List.take_left _ _
  revert htake
  decide

lemma mapcount_ne_nm2id (a : String) :
    NGAMS_SN_SH_MAP_COUNT ≠ NGAMS_SN_SH_NM2ID_TAG ++ a := by
  intro h
  have hd : NGAMS_SN_SH_MAP_COUNT.data =
      NGAMS_SN_SH_NM2ID_TAG.data ++ a.data := by
    have := congrArg String.data h
    simpa using this
  have htake : NGAMS_SN_SH_MAP_COUNT.data.take 11 = NGAMS_SN_SH_NM2ID_TAG.data := by
    rw [hd]
    have : NGAMS_SN_SH_NM2ID_TAG.data.length = 11 := by decide
    rw [show (11 : Nat) = NGAMS_SN_SH_NM2ID_TAG.data.length from this.symm]
    exact List.take_left _ _
  revert htake
  decide

lemma dbmLookup_put_self (d : Dbm) (k : String) (v : SnapVal) :
    dbmLookup (dbmPut d k v) k = some v := by
  induction d with
  | nil => simp [dbmPut, dbmLookup]
  | cons p rest ih =>
    by_cases h : p.1 = k
    · simp [dbmPut, h, dbmLookup]
    · simp [dbmPut, h, dbmLookup, ih]

lemma dbmLookup_put_ne (d : Dbm) (k k' : String) (v : SnapVal) (h : k ≠ k') :
    dbmLookup (dbmPut d k v) k' = dbmLookup d k' := by
  induction d with
  | nil => simp [dbmPut, dbmLookup, h]
  | cons p rest ih =>
    by_cases hp : p.1 = k
    · simp [dbmPut, hp, dbmLookup, h]
    · simp only [dbmPut, hp, if_false, dbmLookup]
      by_cases hp' : p.1 = k'
      · simp [hp']
      · simp [hp', ih]

lemma assocLookup_put_self (d : List (Nat × String)) (k : Nat) (v : String) :
    assocLookup (assocPut d k v) k = some v := by
  induction d with
  | nil => simp [assocPut, assocLookup]
  | cons p rest ih =>
    by_cases h : p.1 = k
    · simp [assocPut, h, assocLookup]
    · simp [assocPut, h, assocLookup, ih]

lemma assocLookup_put_ne (d : List (Nat × String)) (k k' : Nat) (v : String) (h : k ≠ k') :
    assocLookup (assocPut d k v) k' = assocLookup d k' := by
  induction d with
  | nil => simp [assocPut, assocLookup, h]
  | cons p rest ih =>
    by_cases hp : p.1 = k
    · simp [assocPut, hp, assocLookup, h]
    · simp only [assocPut, hp, if_false, assocLookup]
      by_cases hp' : p.1 = k'
      · simp [hp']
      · simp [hp', ih]

lemma assocPut_mem {d : List (Nat × String)} {k : Nat} {v : String} {p : Nat × String}
    (h : p ∈ assocPut d k v) : p = (k, v) ∨ p ∈ d := by
  induction d with
  | nil => simpa [assocPut] using h
  | cons q rest ih =>
    by_cases hq : q.1 = k
    · simp only [assocPut, hq, if_true] at h
      rcases List.mem_cons.1 h with h | h
      · exact Or.inl h
      · exact Or.inr (List.mem_cons_of_mem _ h)
    · simp only [assocPut, hq, if_false] at h
      rcases List.mem_cons.1 h with h | h
      · exact Or.inr (h ▸ List.mem_cons_self _ _)
      · rcases ih h with h | h
        · exact Or.inl h
        · exact Or.inr (List.mem_cons_of_mem _ h)

lemma assocPut_keys_nodup {d : List (Nat × String)} {k : Nat} {v : String}
    (h : (d.map Prod.fst).Nodup) : ((assocPut d k v).map Prod.fst).Nodup := by
  induction d with
  | nil => simp [assocPut]
  | cons q rest ih =>
    by_cases hq : q.1 = k
    · simpa [assocPut, hq] using h
    · simp only [assocPut, hq, if_false, List.map_cons, List.nodup_cons] at h ⊢
      refine ⟨fun hmem => ?_, ih h.2⟩
      rcases List.mem_map.1 hmem with ⟨p, hp, hfst⟩
      rcases assocPut_mem hp with rfl | hp'
      · exact hq hfst.symm
      · exact h.1 (List.mem_map.2 ⟨p, hp', hfst⟩)

lemma encName_spec (store : Dbm) (name : String) (h : DictGood store) :
    DictGood (_encName store name).2 ∧
    dbmLookup (_encName store name).2 (NGAMS_SN_SH_NM2ID_TAG ++ name)
      = some (SnapVal.nat (_encName store name).1) ∧
    (∀ nm j, dbmLookup store (NGAMS_SN_SH_NM2ID_TAG ++ nm) = some (SnapVal.nat j) →
      dbmLookup (_encName store name).2 (NGAMS_SN_SH_NM2ID_TAG ++ nm)
        = some (SnapVal.nat j)) := by
  obtain ⟨h1, h2, h3, h4⟩ := h
  by_cases hk : dbmHasKey store (NGAMS_SN_SH_NM2ID_TAG ++ name)
  · rcases Option.isSome_iff_exists.1 (by simpa [dbmHasKey] using hk) with ⟨v, hv⟩
    rcases h4 name v hv with ⟨i, rfl⟩
    have hres : _encName store name = (i, store) := by
      simp [_encName, hk, _readDb, hv, asNat]
    rw [hres]
    exact ⟨⟨h1, h2, h3, h4⟩, by simpa [asNat] using hv, fun nm j hj => hj⟩
  · -- a fresh id is allocated and all three reserved entries are written
    have hkn : dbmLookup store (NGAMS_SN_SH_NM2ID_TAG ++ name) = none := by
      cases hcase : dbmLookup store (NGAMS_SN_SH_NM2ID_TAG ++ name) with
      | none => rfl
      | some v => exact absurd (by simp [dbmHasKey, hcase]) hk
    set count := if dbmHasKey store NGAMS_SN_SH_MAP_COUNT then
        asNat (_readDb store NGAMS_SN_SH_MAP_COUNT) + 1 else 0 with hcount
    set d3 := _addInDbm (_addInDbm (_addInDbm store NGAMS_SN_SH_MAP_COUNT (SnapVal.nat count))
        (NGAMS_SN_SH_NM2ID_TAG ++ name) (SnapVal.nat count))
        (NGAMS_SN_SH_ID2NM_TAG ++ natToStr count) (SnapVal.str name) with hd3
    have hres : _encName store name = (count, d3) := by
      rw [_encName]
      simp only [hk, if_false]
      rfl
    -- the value of every old name→id entry is at most the old counter, hence below `count`
    have hold_lt : ∀ nm j, dbmLookup store (NGAMS_SN_SH_NM2ID_TAG ++ nm)
        = some (SnapVal.nat j) → j < count := by
      intro nm j hj
      rcases h2 nm j hj with ⟨c, hc, hjc⟩
      have hkc : dbmHasKey store NGAMS_SN_SH_MAP_COUNT = true := by
        simp [dbmHasKey, hc]
      rw [hcount]
      simp only [hkc, if_true, _readDb, hc, Option.getD_some, asNat]
      omega
    -- lookups in the triple-updated store
    have hl_mc : dbmLookup d3 NGAMS_SN_SH_MAP_COUNT = some (SnapVal.nat count) := by
      rw [hd3]
      simp only [_addInDbm]
      rw [dbmLookup_put_ne _ _ _ _ (Ne.symm (mapcount_ne_id2nm _)),
        dbmLookup_put_ne _ _ _ _ (Ne.symm (mapcount_ne_nm2id _)),
        dbmLookup_put_self]
    have hl_nm : ∀ nm, dbmLookup d3 (NGAMS_SN_SH_NM2ID_TAG ++ nm)
        = if nm = name then some (SnapVal.nat count)
          else dbmLookup store (NGAMS_SN_SH_NM2ID_TAG ++ nm) := by
      intro nm
      rw [hd3]
      simp only [_addInDbm]
      rw [dbmLookup_put_ne _ _ _ _ (id2nm_ne_nm2id (natToStr count) nm)]
      by_cases hnm : nm = name
      · subst hnm
        simp [dbmLookup_put_self]
      · rw [if_neg hnm,
          dbmLookup_put_ne _ _ _ _ (fun he => hnm (nm2id_key_inj he).symm),
          dbmLookup_put_ne _ _ _ _ (mapcount_ne_nm2id _)]
    have hl_id : ∀ s, dbmLookup d3 (NGAMS_SN_SH_ID2NM_TAG ++ s)
        = if s = natToStr count then some (SnapVal.str name)
          else dbmLookup store (NGAMS_SN_SH_ID2NM_TAG ++ s) := by
      intro s
      by_cases hs : s = natToStr count
      · subst hs
        rw [hd3]
        simp only [_addInDbm]
        rw [dbmLookup_put_self]
        simp
      · rw [hd3]
        simp only [_addInDbm]
        rw [dbmLookup_put_ne _ _ _ _ (fun he => hs (id2nm_key_inj he).symm),
          dbmLookup_put_ne _ _ _ _ (fun he => id2nm_ne_nm2id _ _ he.symm),
          dbmLookup_put_ne _ _ _ _ (mapcount_ne_id2nm _), if_neg hs]
    rw [hres]
    refine ⟨⟨?_, ?_, ?_, ?_⟩, ?_, ?_⟩
    · intro nm i hi
      rw [hl_nm] at hi
      by_cases hnm : nm = name
      · rw [if_pos hnm] at hi
        obtain rfl : i = count := by
          injection hi with hi'
          injection hi' with hi''
          omega
        rw [hl_id, if_pos rfl, hnm]
      · rw [if_neg hnm] at hi
        have hlt := hold_lt nm i hi
        rw [hl_id, if_neg (fun he => by
          have := natToStr_injective he
          omega)]
        exact h1 nm i hi
    · intro nm i hi
      rw [hl_nm] at hi
      refine ⟨count, hl_mc, ?_⟩
      by_cases hnm : nm = name
      · rw [if_pos hnm] at hi
        injection hi with hi'
        injection hi' with hi''
        omega
      · rw [if_neg hnm] at hi
        exact Nat.le_of_lt (hold_lt nm i hi)
    · intro v hv
      rw [hl_mc] at hv
      exact ⟨count, (Option.some_inj.1 hv).symm⟩
    · intro nm v hv
      rw [hl_nm] at hv
      by_cases hnm : nm = name
      · rw [if_pos hnm] at hv
        exact ⟨count, (Option.some_inj.1 hv).symm⟩
      · rw [if_neg hnm] at hv
        exact h4 nm v hv
    · rw [hl_nm, if_pos rfl]
    · intro nm j hj
      rw [hl_nm]
      by_cases hnm : nm = name
      · subst hnm
        rw [hkn] at hj
        exact absurd hj (by simp)
      · rw [if_neg hnm]
        exact hj

lemma assocLookup_mem {d : List (Nat × String)} {k : Nat} {v : String}
    (h : assocLookup d k = some v) : (k, v) ∈ d := by
  induction d with
  | nil => simp [assocLookup] at h
  | cons q rest ih =>
    by_cases hq : q.1 = k
    · simp only [assocLookup, hq, if_true, Option.some_inj] at h
      subst h
      exact (by simpa [← hq] using List.mem_cons_self q rest)
    · simp only [assocLookup, hq, if_false] at h
      exact List.mem_cons_of_mem _ (ih h)

lemma colIdx_inj : ∀ m < 16, ∀ n < 16,
    ngasFilesMapIdx m = ngasFilesMapIdx n → m = n := by decide

lemma colIdx_map_name : ∀ m < 16,
    ngasFilesMapName (ngasFilesMapIdx m) = some m := by decide

/-- Invariant of the `_encFileInfo` loop: the store keeps a consistent
dictionary, every processed column has a registered id whose dictionary
entry carries the row value, and every dictionary entry stems from a
processed column. -/
lemma encFileInfoLoop_spec (fileInfo : List String) :
    ∀ (ns done : List Nat) (dic : List (Nat × String)) (store : Dbm),
    DictGood store →
    (∀ n ∈ ns, n < 16) →
    (∀ n ∈ done, n < 16) →
    (∀ n ∈ ns, n ∉ done) →
    ns.Nodup →
    (∀ m ∈ done, ∃ i, dbmLookup store (NGAMS_SN_SH_NM2ID_TAG ++ ngasFilesMapIdx m)
        = some (SnapVal.nat i) ∧ assocLookup dic i = some (rowVal fileInfo m)) →
    (∀ p ∈ dic, ∃ m, m ∈ done ∧
        dbmLookup store (NGAMS_SN_SH_NM2ID_TAG ++ ngasFilesMapIdx m)
          = some (SnapVal.nat p.1) ∧ p.2 = rowVal fileInfo m) →
    (dic.map Prod.fst).Nodup →
    DictGood (_encFileInfoLoop fileInfo ns (dic, store)).2 ∧
    (∀ m, (m ∈ done ∨ m ∈ ns) →
      ∃ i, dbmLookup (_encFileInfoLoop fileInfo ns (dic, store)).2
          (NGAMS_SN_SH_NM2ID_TAG ++ ngasFilesMapIdx m) = some (SnapVal.nat i) ∧
        assocLookup (_encFileInfoLoop fileInfo ns (dic, store)).1 i
          = some (rowVal fileInfo m)) ∧
    (∀ p ∈ (_encFileInfoLoop fileInfo ns (dic, store)).1, ∃ m, (m ∈ done ∨ m ∈ ns) ∧
      dbmLookup (_encFileInfoLoop fileInfo ns (dic, store)).2
          (NGAMS_SN_SH_NM2ID_TAG ++ ngasFilesMapIdx m) = some (SnapVal.nat p.1) ∧
      p.2 = rowVal fileInfo m) ∧
    ((_encFileInfoLoop fileInfo ns (dic, store)).1.map Prod.fst).Nodup := by
  intro ns
  induction ns with
  | nil =>
    intro done dic store hg _ _ _ _ hinv hkeys hnd
    refine ⟨hg, ?_, ?_, hnd⟩
    · intro m hm
      exact hinv m (hm.resolve_right (by simp))
    · intro p hp
      obtain ⟨m, hm, h⟩ := hkeys p hp
      exact ⟨m, Or.inl hm, h⟩
  | cons n rest ih =>
    intro done dic store hg hns hdone hdisj hnodup hinv hkeys hnd
    obtain ⟨hg', hnm', hpres⟩ := encName_spec store (ngasFilesMapIdx n) hg
    have hn16 : n < 16 := hns n (List.mem_cons_self _ _)
    have hfresh : ∀ p ∈ dic, p.1 ≠ (_encName store (ngasFilesMapIdx n)).1 := by
      intro p hp hpi
      obtain ⟨m, hmdone, hml, _⟩ := hkeys p hp
      have hml1 := hpres _ _ hml
      obtain ⟨g1, _, _, _⟩ := hg'
      have e1 := g1 _ _ hml1
      have e2 := g1 _ _ hnm'
      rw [hpi] at e1
      rw [e1] at e2
      have hcol : ngasFilesMapIdx m = ngasFilesMapIdx n := by
        injection e2 with e2'
        injection e2' with e2''
      have := colIdx_inj m (hdone m hmdone) n hn16 hcol
      exact (hdisj n (List.mem_cons_self _ _)) (this ▸ hmdone)
    have hstep := ih (done ++ [n])
      (assocPut dic (_encName store (ngasFilesMapIdx n)).1 (rowVal fileInfo n))
      (_encName store (ngasFilesMapIdx n)).2
      hg'
      (fun k hk => hns k (List.mem_cons_of_mem _ hk))
      (fun m hm => by
        rcases List.mem_append.1 hm with hm | hm
        · exact hdone m hm
        · simp at hm
          omega)
      (fun k hk hkd => by
        rcases List.mem_append.1 hkd with hkd | hkd
        · exact hdisj k (List.mem_cons_of_mem _ hk) hkd
        · simp at hkd
          subst hkd
          exact (List.nodup_cons.1 hnodup).1 hk)
      (List.nodup_cons.1 hnodup).2
      (fun m hm => by
        rcases List.mem_append.1 hm with hm | hm
        · obtain ⟨j, hml, hal⟩ := hinv m hm
          refine ⟨j, hpres _ _ hml, ?_⟩
          have hj : (j, rowVal fileInfo m) ∈ dic := assocLookup_mem hal
          rw [assocLookup_put_ne _ _ _ _ (Ne.symm (hfresh _ hj))]
          exact hal
        · simp at hm
          subst hm
          exact ⟨_, hnm', assocLookup_put_self _ _ _⟩)
      (fun p hp => by
        rcases assocPut_mem hp with rfl | hp'
        · exact ⟨n, List.mem_append.2 (Or.inr (by simp)), hnm', rfl⟩
        · obtain ⟨m, hm, hml, hv⟩ := hkeys p hp'
          exact ⟨m, List.mem_append.2 (Or.inl hm), hpres _ _ hml, hv⟩)
      (assocPut_keys_nodup hnd)
    have hunfold : _encFileInfoLoop fileInfo (n :: rest) (dic, store)
        = _encFileInfoLoop fileInfo rest
            (assocPut dic (_encName store (ngasFilesMapIdx n)).1 (rowVal fileInfo n),
             (_encName store (ngasFilesMapIdx n)).2) := rfl
    rw [hunfold]
    obtain ⟨c1, c2, c3, c4⟩ := hstep
    refine ⟨c1, ?_, ?_, c4⟩
    · intro m hm
      apply c2
      rcases hm with hm | hm
      · exact Or.inl (List.mem_append.2 (Or.inl hm))
      · rcases List.mem_cons.1 hm with rfl | hm
        · exact Or.inl (List.mem_append.2 (Or.inr (by simp)))
        · exact Or.inr hm
    · intro p hp
      obtain ⟨m, hm, h⟩ := c3 p hp
      refine ⟨m, ?_, h⟩
      rcases hm with hm | hm
      · rcases List.mem_append.1 hm with hm | hm
        · exact Or.inl hm
        · simp at hm
          subst hm
          exact Or.inr (List.mem_cons_self _ _)
      · exact Or.inr (List.mem_cons_of_mem _ hm)

/-- Decoding an encoded dictionary whose every id is registered against a
column of the store succeeds; cells of unclaimed columns keep their input
value, and each entry's value lands in the cell of its column. -/
lemma decodeLoop_spec (store : Dbm) (fileInfo : List String) (hg : DictGood store) :
    ∀ (entries : List (Nat × String)) (sql : List (Option String)),
    (∀ p ∈ entries, ∃ m, m < 16 ∧
        dbmLookup store (NGAMS_SN_SH_NM2ID_TAG ++ ngasFilesMapIdx m)
          = some (SnapVal.nat p.1) ∧ p.2 = rowVal fileInfo m) →
    (entries.map Prod.fst).Nodup →
    ∃ sql', decodeLoop store entries sql = Except.ok (some sql') ∧
      sql'.length = sql.length ∧
      (∀ n, (∀ p ∈ entries, ∀ m, m < 16 →
          dbmLookup store (NGAMS_SN_SH_NM2ID_TAG ++ ngasFilesMapIdx m)
            = some (SnapVal.nat p.1) → m ≠ n) →
        sql'.get? n = sql.get? n) ∧
      (∀ p ∈ entries, ∀ m, m < 16 →
        dbmLookup store (NGAMS_SN_SH_NM2ID_TAG ++ ngasFilesMapIdx m)
          = some (SnapVal.nat p.1) →
        m < sql.length → sql'.get? m = some (some p.2)) := by
  intro entries
  induction entries with
  | nil =>
    intro sql _ _
    exact ⟨sql, rfl, rfl, fun _ _ => rfl, by simp⟩
  | cons p rest ih =>
    intro sql hent hnd
    obtain ⟨m, hm16, hml, hval⟩ := hent p (List.mem_cons_self _ _)
    obtain ⟨g1, _, _, _⟩ := hg
    have hid : dbmLookup store (NGAMS_SN_SH_ID2NM_TAG ++ natToStr p.1)
        = some (SnapVal.str (ngasFilesMapIdx m)) := g1 _ _ hml
    have hstep : decodeLoop store (p :: rest) sql
        = decodeLoop store rest (sql.set m (some p.2)) := by
      obtain ⟨pi, pv⟩ := p
      simp only [decodeLoop, dbmHasKey, hid, Option.isSome_some, if_true, _readDb,
        Option.getD_some]
      rw [colIdx_map_name m hm16]
    have hnd' : p.1 ∉ rest.map Prod.fst ∧ (rest.map Prod.fst).Nodup := by
      rw [List.map_cons, List.nodup_cons] at hnd
      exact hnd
    have hkey_ne : ∀ r ∈ rest, r.1 ≠ p.1 := by
      intro r hr he
      exact hnd'.1 (he ▸ List.mem_map.2 ⟨r, hr, rfl⟩)
    -- no entry of `rest` claims column `m`
    have hrest_ne_m : ∀ r ∈ rest, ∀ m', m' < 16 →
        dbmLookup store (NGAMS_SN_SH_NM2ID_TAG ++ ngasFilesMapIdx m')
          = some (SnapVal.nat r.1) → m' ≠ m := by
      intro r hr m' _ hml' he
      subst he
      rw [hml] at hml'
      have : r.1 = p.1 := by
        injection hml' with h'
        injection h' with h''
        omega
      exact hkey_ne r hr this
    obtain ⟨sql', hdec, hlen, hpre, hcells⟩ :=
      ih (sql.set m (some p.2))
        (fun q hq => hent q (List.mem_cons_of_mem _ hq))
        hnd'.2
    refine ⟨sql', by rw [hstep]; exact hdec, by simpa using hlen, ?_, ?_⟩
    · intro n hn
      have hm_ne_n : m ≠ n := hn p (List.mem_cons_self _ _) m hm16 hml
      rw [hpre n (fun r hr m' h16 hml' => hn r (List.mem_cons_of_mem _ hr) m' h16 hml'),
        List.get?_set_ne _ _ hm_ne_n]
    · intro q hq m' hm16' hml' hmlt
      rcases List.mem_cons.1 hq with rfl | hq'
      · -- the head entry: its column can only be `m`
        have hm'm : m' = m := by
          have hid' := g1 _ _ hml'
          rw [hid] at hid'
          have hcol : ngasFilesMapIdx m = ngasFilesMapIdx m' := by
            injection hid' with h'
            injection h' with h''
          exact colIdx_inj m' hm16' m hm16 hcol.symm
        subst hm'm
        rw [hpre m' (hrest_ne_m), List.get?_set_eq_of_lt _ hmlt]
      · exact hcells q hq' m' hm16' hml' (by simpa using hmlt)

lemma mem_cols_mapName (cn : String) (h : cn ∈ ngasFilesCols) :
    ∃ i, ngasFilesMapName cn = some i := by
  fin_cases h <;> exact ⟨_, rfl⟩

/-- A record whose encoded dictionary references an id with an absent
id→name entry decodes to "no record" (`ok none`), provided the ids that are
present resolve to genuine column names. -/
lemma decodeLoop_missing (store : Dbm) :
    ∀ (entries : List (Nat × String)) (sql : List (Option String)),
    (∀ p ∈ entries,
      dbmLookup store (NGAMS_SN_SH_ID2NM_TAG ++ natToStr p.1) = none ∨
      ∃ cn, dbmLookup store (NGAMS_SN_SH_ID2NM_TAG ++ natToStr p.1)
          = some (SnapVal.str cn) ∧ cn ∈ ngasFilesCols) →
    (∃ p ∈ entries, dbmLookup store (NGAMS_SN_SH_ID2NM_TAG ++ natToStr p.1) = none) →
    decodeLoop store entries sql = Except.ok none := by
  intro entries
  induction entries with
  | nil =>
    intro sql _ hex
    simp at hex
  | cons p rest ih =>
    intro sql hall hex
    rcases hall p (List.mem_cons_self _ _) with hnone | ⟨cn, hcn, hcnmem⟩
    · obtain ⟨pi, pv⟩ := p
      simp only [decodeLoop, dbmHasKey, hnone, Option.isSome_none, if_false]
      rfl
    · obtain ⟨i, hi⟩ := mem_cols_mapName cn hcnmem
      have hstep : decodeLoop store (p :: rest) sql
          = decodeLoop store rest (sql.set i (some p.2)) := by
        obtain ⟨pi, pv⟩ := p
        simp only [decodeLoop, dbmHasKey, hcn, Option.isSome_some, if_true, _readDb,
          Option.getD_some]
        rw [hi]
      rw [hstep]
      apply ih _ (fun q hq => hall q (List.mem_cons_of_mem _ hq))
      obtain ⟨q, hq, hqn⟩ := hex
      rcases List.mem_cons.1 hq with rfl | hq'
      · rw [hcn] at hqn
        exact absurd hqn (by simp)
      · exact ⟨q, hq', hqn⟩

/-- Round-trip of the record encoding over a store with a consistent
name dictionary. -/
lemma encFileInfo_roundTrip (store : Dbm) (fileInfo : List String)
    (hg : DictGood store) (hlen : fileInfo.length = NGAS_FILES_CONTAINER_ID + 1) :
    ∃ obj : FileInfoObj,
      _encFileInfo2Obj (_encFileInfo store fileInfo).2 (_encFileInfo store fileInfo).1
        = Except.ok (some obj) ∧
      ∀ n, n ≤ NGAS_FILES_IO_TIME → obj.row.get? n = some (fileInfo.get? n) := by
  have hloop := encFileInfoLoop_spec fileInfo (List.range (NGAS_FILES_IO_TIME + 1)) []
    [] store hg
    (fun n hn => by
      have := List.mem_range.1 hn
      revert this
      simp [NGAS_FILES_IO_TIME]
      omega)
    (by simp) (by simp) (List.nodup_range _)
    (by simp) (by simp) (by simp)
  obtain ⟨hg', hall, hkeys', hnd'⟩ := hloop
  have hent : ∀ p ∈ (_encFileInfo store fileInfo).1, ∃ m, m < 16 ∧
      dbmLookup (_encFileInfo store fileInfo).2
        (NGAMS_SN_SH_NM2ID_TAG ++ ngasFilesMapIdx m) = some (SnapVal.nat p.1) ∧
      p.2 = rowVal fileInfo m := by
    intro p hp
    obtain ⟨m, hm, hl, hv⟩ := hkeys' p hp
    refine ⟨m, ?_, hl, hv⟩
    rcases hm with hm | hm
    · simp at hm
    · have := List.mem_range.1 hm
      revert this
      simp [NGAS_FILES_IO_TIME]
      omega
  obtain ⟨sql', hdec, hlen', hpre, hcells⟩ :=
    decodeLoop_spec (_encFileInfo store fileInfo).2 fileInfo hg'
      (_encFileInfo store fileInfo).1
      (List.replicate (NGAS_FILES_CONTAINER_ID + 1) none) hent hnd'
  refine ⟨unpackSqlResult sql', ?_, ?_⟩
  · rw [_encFileInfo2Obj, hdec]
    rfl
  · intro n hn
    have hn15 : n ∈ List.range (NGAS_FILES_IO_TIME + 1) := by
      rw [List.mem_range]
      omega
    obtain ⟨i, hlm, hal⟩ := hall n (Or.inr hn15)
    have hmem : (i, rowVal fileInfo n) ∈ (_encFileInfo store fileInfo).1 :=
      assocLookup_mem hal
    have hn16 : n < 16 := by
      revert hn
      simp [NGAS_FILES_IO_TIME]
      omega
    have hncell := hcells (i, rowVal fileInfo n) hmem n hn16 hlm
      (by simpa [NGAS_FILES_CONTAINER_ID] using hn16)
    have hflen : n < fileInfo.length := by
      rw [hlen]
      simpa [NGAS_FILES_CONTAINER_ID] using hn16
    cases hfi : fileInfo.get? n with
    | none =>
      rw [List.get?_eq_none] at hfi
      omega
    | some s =>
      show sql'.get? n = some (some s)
      rw [hncell]
      have hfi' : fileInfo[n]? = some s := by
        rw [← List.get?_eq_getElem?]
        exact hfi
      simp [rowVal, hfi']

lemma sameCore_refl (st : RSt) : sameCore st st := ⟨rfl, rfl, rfl, rfl⟩

lemma sameCore_trans {s1 s2 s3 : RSt} (h1 : sameCore s1 s2) (h2 : sameCore s2 s3) :
    sameCore s1 s3 := by
  obtain ⟨a1, b1, c1, d1⟩ := h1
  obtain ⟨a2, b2, c2, d2⟩ := h2
  exact ⟨a2.trans a1, b2.trans b1, c2.trans c1, d2.trans d1⟩

lemma checkStopJ_core (env : Env) (st : RSt) : sameCore st (checkStopJ env st).2 := by
  unfold checkStopJ
  by_cases h : env.stopEvt st.clock
  · simp [h, sameCore]
  · simp [h, sameCore]

lemma passTail_core (env : Env) (st : RSt) : sameCore st (passTail env st).2 := by
  unfold passTail
  by_cases h : ({ st with count := st.count + 1 } : RSt).count % 100 = 0
  · simp only [h, if_true]
    exact checkStopJ_core env _
  · simp only [h, if_false]
    exact ⟨rfl, rfl, rfl, rfl⟩

lemma sameCore_passTail (env : Env) {st st' : RSt} (h : sameCore st st') :
    sameCore st (passTail env st').2 :=
  sameCore_trans h (passTail_core env st')

lemma passAStep_core (env : Env) (mtPt : String) (st : RSt) (kv : String × SnapVal) :
    sameCore st (passAStep env mtPt st kv).2 := by
  obtain ⟨key, v⟩ := kv
  simp only [passAStep]
  split
  · apply sameCore_passTail
    split <;> exact ⟨rfl, rfl, rfl, rfl⟩
  · split
    · split
      · exact sameCore_refl st
      · exact sameCore_refl st
      · split
        · apply sameCore_passTail
          split <;> exact ⟨rfl, rfl, rfl, rfl⟩
        · split
          · exact sameCore_passTail env ⟨rfl, rfl, rfl, rfl⟩
          · apply sameCore_passTail
            split <;> exact ⟨rfl, rfl, rfl, rfl⟩
    · exact sameCore_refl st

lemma passALoop_core (env : Env) (mtPt : String) (entries : List (String × SnapVal)) :
    ∀ st : RSt, sameCore st (passALoop env mtPt entries st).2 := by
  induction entries with
  | nil => intro st; exact sameCore_refl st
  | cons e rest ih =>
    intro st
    unfold passALoop
    cases hstep : passAStep env mtPt st e with
    | mk res st' =>
      have hc : sameCore st st' := by
        have := passAStep_core env mtPt st e
        rw [hstep] at this
        exact this
      cases res with
      | ok _ => exact sameCore_trans hc (ih st')
      | error ex => exact hc

lemma snapshotPut_core (st : RSt) (k : String) (v : SnapVal) :
    sameCore st (snapshotPut st k v).2 := by
  unfold snapshotPut
  by_cases h : st.snapMode = DbmMode.r
  · simp only [h, if_true]
    exact sameCore_refl st
  · simp only [h, if_false]
    exact ⟨rfl, rfl, rfl, rfl⟩

lemma snapshotDelKey_core (st : RSt) (k : String) :
    sameCore st (snapshotDelKey st k).2 := by
  unfold snapshotDelKey
  by_cases h : st.snapMode = DbmMode.r
  · simp only [h, if_true]
    exact sameCore_refl st
  · simp only [h, if_false]
    exact ⟨rfl, rfl, rfl, rfl⟩

lemma putThenTail_core (env : Env) (st : RSt) (k : String) (v : SnapVal) :
    sameCore st (putThenTail env st k v).2 := by
  unfold putThenTail
  cases hput : snapshotPut st k v with
  | mk res st' =>
    have hc : sameCore st st' := by
      have := snapshotPut_core st k v
      rw [hput] at this
      exact this
    cases res with
    | ok _ => exact sameCore_passTail env hc
    | error e => exact hc

lemma passBStep_core (env : Env) (mtPt : String) (st : RSt) (kv : String × SnapVal) :
    sameCore st (passBStep env mtPt st kv).2 := by
  obtain ⟨key, v⟩ := kv
  simp only [passBStep]
  split
  · split
    · exact putThenTail_core env st _ _
    · exact passTail_core env st
  · split
    · split
      · split
        · exact sameCore_refl st
        · exact sameCore_refl st
        · split
          · split
            · exact putThenTail_core env st _ _
            · exact passTail_core env st
          · exact sameCore_passTail env ⟨rfl, rfl, rfl, rfl⟩
      · exact sameCore_refl st
    · split
      · exact putThenTail_core env st _ _
      · exact passTail_core env st

lemma passBLoop_core (env : Env) (mtPt : String) (entries : List (String × SnapVal)) :
    ∀ st : RSt, sameCore st (passBLoop env mtPt entries st).2 := by
  induction entries with
  | nil => intro st; exact sameCore_refl st
  | cons e rest ih =>
    intro st
    unfold passBLoop
    cases hstep : passBStep env mtPt st e with
    | mk res st' =>
      have hc : sameCore st st' := by
        have := passBStep_core env mtPt st e
        rw [hstep] at this
        exact this
      cases res with
      | ok _ => exact sameCore_trans hc (ih st')
      | error ex => exact hc

lemma buildTmpStep_core (st : RSt) (row : DbRow) : sameCore st (buildTmpStep st row) := by
  unfold buildTmpStep
  exact ⟨rfl, rfl, rfl, rfl⟩

lemma buildTmpLoop_core (env : Env) (rows : List DbRow) :
    ∀ st : RSt, sameCore st (buildTmpLoop env rows st).2 := by
  induction rows with
  | nil => intro st; exact sameCore_refl st
  | cons row rest ih =>
    intro st
    unfold buildTmpLoop
    cases hstep : checkStopJ env (buildTmpStep st row) with
    | mk res st' =>
      have hc : sameCore st st' := by
        have := checkStopJ_core env (buildTmpStep st row)
        rw [hstep] at this
        exact sameCore_trans (buildTmpStep_core st row) this
      cases res with
      | ok _ => exact sameCore_trans hc (ih st')
      | error e => exact hc

lemma delSnapshotLoop_core (keys : List String) :
    ∀ st : RSt, sameCore st (delSnapshotLoop keys st).2 := by
  induction keys with
  | nil => intro st; exact sameCore_refl st
  | cons key rest ih =>
    intro st
    unfold delSnapshotLoop
    split
    · exact ih st
    · cases hstep : snapshotDelKey st key with
      | mk res st' =>
        have hc : sameCore st st' := by
          have := snapshotDelKey_core st key
          rw [hstep] at this
          exact this
        cases res with
        | ok _ => exact sameCore_trans hc (ih st')
        | error e => exact hc

lemma snapsLookup_put_self (s : List (String × Dbm)) (k : String) (v : Dbm) :
    snapsLookup (snapsPut s k v) k = some v := by
  induction s with
  | nil => simp [snapsPut, snapsLookup]
  | cons p rest ih =>
    by_cases h : p.1 = k
    · simp [snapsPut, h, snapsLookup]
    · simp [snapsPut, h, snapsLookup, ih]

lemma snapsLookup_put_ne (s : List (String × Dbm)) (k k' : String) (v : Dbm)
    (h : k ≠ k') : snapsLookup (snapsPut s k v) k' = snapsLookup s k' := by
  induction s with
  | nil => simp [snapsPut, snapsLookup, h]
  | cons p rest ih =>
    by_cases hp : p.1 = k
    · simp [snapsPut, hp, snapsLookup, h]
    · simp only [snapsPut, hp, if_false, snapsLookup]
      by_cases hp' : p.1 = k'
      · simp [hp']
      · simp [hp', ih]

lemma handle_tags_ne (m m' : String) : "snapshot:" ++ m ≠ "tmpSnapshot:" ++ m' := by
  intro h
  have hd : ("snapshot:" ++ m).data = ("tmpSnapshot:" ++ m').data := congrArg String.data h
  have hd' : "snapshot:".data ++ m.data = "tmpSnapshot:".data ++ m'.data := by
    simpa using hd
  have h2 := congrArg (fun l => l.take 9) hd'
  simp only at h2
  rw [List.take_append_of_le_length (by decide),
    List.take_append_of_le_length (by decide)] at h2
  revert h2
  decide

lemma filter_ne_of_not_mem {l : List String} {x : String} (h : x ∉ l) :
    l.filter (fun y => y ≠ x) = l := by
  apply List.filter_eq_self.2
  intro a ha
  simp only [ne_eq, decide_not]
  simp only [Bool.not_eq_true', decide_eq_false_iff_not]
  intro he
  exact h (he ▸ ha)

lemma reconcileOpened_core (env : Env) (mtPt diskId : String) (st : RSt) :
    sameCore st (reconcileOpened env mtPt diskId st).2 := by
  unfold reconcileOpened
  cases h1 : buildTmpLoop env (dumpFileInfoList st.db diskId) st with
  | mk res1 st1 =>
    have hc1 : sameCore st st1 := by
      have := buildTmpLoop_core env (dumpFileInfoList st.db diskId) st
      rw [h1] at this
      exact this
    cases res1 with
    | error e => exact hc1
    | ok _ =>
      simp only
      cases h2 : passALoop env mtPt
          ({ st1 with snapshotDelDbm := [], count := 0 } : RSt).snapshotDbm
          { st1 with snapshotDelDbm := [], count := 0 } with
      | mk res2 st2 =>
        have hc2 : sameCore st st2 := by
          have := passALoop_core env mtPt
            ({ st1 with snapshotDelDbm := [], count := 0 } : RSt).snapshotDbm
            { st1 with snapshotDelDbm := [], count := 0 }
          rw [h2] at this
          exact sameCore_trans (sameCore_trans hc1 ⟨rfl, rfl, rfl, rfl⟩) this
        cases res2 with
        | error e => exact hc2
        | ok _ =>
          simp only
          cases h3 : delSnapshotLoop st2.snapshotDelDbm st2 with
          | mk res3 st3 =>
            have hc3 : sameCore st st3 := by
              have := delSnapshotLoop_core st2.snapshotDelDbm st2
              rw [h3] at this
              exact sameCore_trans hc2 this
            cases res3 with
            | error e => exact hc3
            | ok _ =>
              simp only
              cases h4 : passBLoop env mtPt
                  ({ st3 with count := 0 } : RSt).tmpSnapshotDbm
                  { st3 with count := 0 } with
              | mk res4 st4 =>
                have hc4 : sameCore st st4 := by
                  have := passBLoop_core env mtPt
                    ({ st3 with count := 0 } : RSt).tmpSnapshotDbm
                    { st3 with count := 0 }
                  rw [h4] at this
                  exact sameCore_trans (sameCore_trans hc3 ⟨rfl, rfl, rfl, rfl⟩) this
                cases res4 with
                | error e => exact hc4
                | ok _ => exact hc4

lemma openSnapshotVars_err {env : Env} {mtPt : String} {st stO : RSt} {e : JExc}
    (h : openSnapshotVars env mtPt st = (Except.error e, stO)) : stO = st := by
  unfold openSnapshotVars at h
  split at h
  · simp only [Prod.mk.injEq] at h
    exact h.2.symm
  · simp only [] at h
    split at h
    · simp at h
    · simp at h

lemma openSnapshotVars_none {env : Env} {mtPt : String} {st stO : RSt}
    (h : openSnapshotVars env mtPt st = (Except.ok none, stO)) : stO = st := by
  unfold openSnapshotVars at h
  split at h
  · simp at h
  · simp only [] at h
    split at h
    · simp only [Prod.mk.injEq] at h
      exact h.2.symm
    · simp at h

lemma openSnapshotVars_some {env : Env} {mtPt : String} {st stO : RSt} {mode : DbmMode}
    (h : openSnapshotVars env mtPt st = (Except.ok (some mode), stO)) :
    stO = { st with
      snapshotDbm := (snapsLookup st.snapshots mtPt).getD []
      snapMode := mode
      varSnapOpen := true
      openHandles := st.openHandles ++ ["snapshot:" ++ mtPt] } := by
  unfold openSnapshotVars at h
  split at h
  · simp at h
  · simp only [] at h
    split at h
    · simp at h
    · rename_i m hm
      simp only [Prod.mk.injEq, Except.ok.injEq, Option.some_inj] at h
      obtain ⟨h1, h2⟩ := h
      rw [← h2, h1]

/-- The `try` body for one disk either skips the disk (state untouched) or
ends — normally or exceptionally — with exactly the disk's two handles
appended as open and the snapshot files untouched (the writeback happens in
the `finally`). -/
lemma processDiskBody_spec (env : Env) (mtPt diskId : String) (st : RSt) :
    (processDiskBody env mtPt diskId st).2 = st ∨
    ((processDiskBody env mtPt diskId st).2.openHandles
        = st.openHandles ++ ["snapshot:" ++ mtPt] ++ ["tmpSnapshot:" ++ mtPt] ∧
      (processDiskBody env mtPt diskId st).2.varSnapOpen = true ∧
      (processDiskBody env mtPt diskId st).2.varTmpOpen = true ∧
      (processDiskBody env mtPt diskId st).2.snapshots = st.snapshots) := by
  unfold processDiskBody
  cases hopen : openSnapshotVars env mtPt st with
  | mk res stO =>
    cases res with
    | error e =>
      simp only
      exact Or.inl (openSnapshotVars_err hopen)
    | ok omode =>
      cases omode with
      | none =>
        simp only
        exact Or.inl (openSnapshotVars_none hopen)
      | some mode =>
        simp only
        apply Or.inr
        have hstO := openSnapshotVars_some hopen
        have hc := reconcileOpened_core env mtPt diskId (openTmpVars mtPt stO)
        obtain ⟨ha, hb, hcv, hd⟩ := hc
        subst hstO
        refine ⟨?_, ?_, ?_, ?_⟩
        · rw [ha]
          rfl
        · rw [hb]
          rfl
        · rw [hcv]
          rfl
        · rw [hd]
          rfl

lemma closeSnapshotVars_fields (mtPt : String) (st : RSt) :
    (closeSnapshotVars mtPt st).openHandles
      = (if st.varTmpOpen then
          (if st.varSnapOpen then
            st.openHandles.filter (fun h => h ≠ "snapshot:" ++ mtPt)
          else st.openHandles).filter (fun h => h ≠ "tmpSnapshot:" ++ mtPt)
        else (if st.varSnapOpen then
            st.openHandles.filter (fun h => h ≠ "snapshot:" ++ mtPt)
          else st.openHandles)) ∧
    (closeSnapshotVars mtPt st).snapshots
      = (if st.varSnapOpen then snapsPut st.snapshots mtPt st.snapshotDbm
         else st.snapshots) := by
  by_cases hvs : st.varSnapOpen <;> by_cases hvt : st.varTmpOpen <;>
    simp [closeSnapshotVars, hvs, hvt]

/-- After the `finally` of one disk, the handle list is exactly what it was
before the disk was processed, on every exit path. -/
lemma processDisk_openHandles (env : Env) (mtPt diskId : String) (st : RSt)
    (h1 : st.varSnapOpen = false) (h2 : st.varTmpOpen = false)
    (h3 : ("snapshot:" ++ mtPt) ∉ st.openHandles)
    (h4 : ("tmpSnapshot:" ++ mtPt) ∉ st.openHandles) :
    (processDisk env mtPt diskId st).2.openHandles = st.openHandles := by
  show (closeSnapshotVars mtPt (processDiskBody env mtPt diskId st).2).openHandles
    = st.openHandles
  rw [(closeSnapshotVars_fields mtPt _).1]
  rcases processDiskBody_spec env mtPt diskId st with hsame | ⟨ha, hb, hcv, _⟩
  · rw [hsame, h1, h2]
    simp
  · rw [ha, hb, hcv]
    have hne : ("tmpSnapshot:" ++ mtPt) ≠ ("snapshot:" ++ mtPt) :=
      fun he => handle_tags_ne mtPt mtPt he.symm
    simp only [if_true, List.filter_append, filter_ne_of_not_mem h3,
      filter_ne_of_not_mem h4]
    simp [hne]

/-- Processing one disk can change the persistent snapshot file of that
disk only; every other mount point's store is untouched. -/
lemma processDisk_snapshots_other (env : Env) (mtPt diskId m : String) (st : RSt)
    (hm : m ≠ mtPt) :
    snapsLookup (processDisk env mtPt diskId st).2.snapshots m
      = snapsLookup st.snapshots m := by
  show snapsLookup (closeSnapshotVars mtPt (processDiskBody env mtPt diskId st).2).snapshots m
    = snapsLookup st.snapshots m
  rw [(closeSnapshotVars_fields mtPt _).2]
  rcases processDiskBody_spec env mtPt diskId st with hsame | ⟨_, _, _, hd⟩
  · rw [hsame]
    by_cases hvs : st.varSnapOpen <;>
      simp [hvs, snapsLookup_put_ne _ _ _ _ (fun he => hm he.symm)]
  · by_cases hvs : (processDiskBody env mtPt diskId st).2.varSnapOpen <;>
      simp [hvs, hd, snapsLookup_put_ne _ _ _ _ (fun he => hm he.symm)]

lemma applyCacheOp_core (st : RSt) (o : FileInfoObj) (op fileKey : String)
    (p : List (Nat × String) × Dbm) : sameCore st (applyCacheOp st o op fileKey p) := by
  simp only [applyCacheOp]
  split
  · exact ⟨rfl, rfl, rfl, rfl⟩
  · split
    · split <;> exact ⟨rfl, rfl, rfl, rfl⟩
    · exact ⟨rfl, rfl, rfl, rfl⟩

lemma applyCacheFileInfo_core (st : RSt) (o : FileInfoObj) (op : String) :
    sameCore st (applyCacheFileInfo st o op) := by
  unfold applyCacheFileInfo
  exact applyCacheOp_core st o op _ _

lemma applyCacheObjList_core (objs : List FileInfoObj) (op : String) :
    ∀ st : RSt, sameCore st (applyCacheObjList st objs op) := by
  induction objs with
  | nil => intro st; exact sameCore_refl st
  | cons o rest ih =>
    intro st
    unfold applyCacheObjList
    exact sameCore_trans (applyCacheFileInfo_core st o op) (ih _)

lemma cacheFilesLoop_core (env : Env) (files : List CacheFile) :
    ∀ st : RSt, sameCore st (cacheFilesLoop env files st).2 := by
  induction files with
  | nil => intro st; exact sameCore_refl st
  | cons cf rest ih =>
    intro st
    unfold cacheFilesLoop
    cases h1 : checkStopJ env st with
    | mk res1 st1 =>
      have hc1 : sameCore st st1 := by
        have := checkStopJ_core env st
        rw [h1] at this
        exact this
      cases res1 with
      | error e => exact hc1
      | ok _ =>
        simp only
        split
        · exact sameCore_trans hc1 (ih st1)
        · have hc2 : sameCore st ({ applyCacheObjList st1 (cacheEntryData cf.obj).1
              (cacheEntryData cf.obj).2 with
              count := (applyCacheObjList st1 (cacheEntryData cf.obj).1
                (cacheEntryData cf.obj).2).count + 1 } : RSt) :=
            sameCore_trans (sameCore_trans hc1
              (applyCacheObjList_core _ _ st1)) ⟨rfl, rfl, rfl, rfl⟩
          split
          · cases h2 : checkStopJ env { applyCacheObjList st1 (cacheEntryData cf.obj).1
                (cacheEntryData cf.obj).2 with
                count := 0 } with
            | mk res2 st2 =>
              have hc3 : sameCore st st2 := by
                have := checkStopJ_core env ({ applyCacheObjList st1 (cacheEntryData cf.obj).1
                  (cacheEntryData cf.obj).2 with count := 0 } : RSt)
                rw [h2] at this
                exact sameCore_trans (sameCore_trans (sameCore_trans hc1
                  (applyCacheObjList_core _ _ st1)) ⟨rfl, rfl, rfl, rfl⟩) this
              cases res2 with
              | error e => exact hc3
              | ok _ =>
                simp only
                exact sameCore_trans hc3 (ih st2)
          · exact sameCore_trans hc2 (ih _)

/-- The change-cache merge also leaves the handle list exactly as it found
it, on every exit path. -/
lemma checkDbChangeCache_openHandles (env : Env) (diskId diskMtPt : String)
    (cacheFiles : List CacheFile) (st : RSt)
    (h1 : st.varSnapOpen = false) (h2 : st.varTmpOpen = false)
    (h3 : ("snapshot:" ++ diskMtPt) ∉ st.openHandles) :
    (checkDbChangeCache env diskId diskMtPt cacheFiles st).2.openHandles
      = st.openHandles := by
  unfold checkDbChangeCache
  split
  · rfl
  · split
    · rfl
    · simp only
      cases hopen : openSnapshotVars env diskMtPt st with
      | mk res stO =>
        cases res with
        | error e =>
          have := openSnapshotVars_err hopen
          subst this
          rw [(closeSnapshotVars_fields diskMtPt _).1]
          simp [h1, h2]
        | ok omode =>
          cases omode with
          | none =>
            have := openSnapshotVars_none hopen
            subst this
            rw [(closeSnapshotVars_fields diskMtPt _).1]
            simp [h1, h2]
          | some mode =>
            have hstO := openSnapshotVars_some hopen
            simp only
            rw [(closeSnapshotVars_fields diskMtPt _).1]
            have hc := cacheFilesLoop_core env
              (cacheFiles.mergeSort (fun a b => a.name ≤ b.name))
              { stO with count := 0 }
            obtain ⟨ha, hb, hcv, _⟩ := hc
            rw [ha, hb, hcv]
            subst hstO
            simp only [if_true]
            rw [List.filter_append, filter_ne_of_not_mem h3]
            simp [h2]

/-- C9: when the cancellation signal — or any other exception — unwinds a
reconciliation pass (`checkUpdateDbSnapShots`'s per-disk body) or a
change-cache merge pass (`checkDbChangeCache`), every snapshot-store handle
opened for the current disk is closed before the signal propagates out of
the function: on every exit path the list of open handles after the
`finally` block equals the list before the disk was processed. -/
theorem claim_C9_handles_closed (env : Env) (mtPt diskId : String)
    (cacheFiles : List CacheFile) (st : RSt)
    (h1 : st.varSnapOpen = false) (h2 : st.varTmpOpen = false)
    (h3 : ("snapshot:" ++ mtPt) ∉ st.openHandles)
    (h4 : ("tmpSnapshot:" ++ mtPt) ∉ st.openHandles) :
    (processDisk env mtPt diskId st).2.openHandles = st.openHandles ∧
    (checkDbChangeCache env diskId mtPt cacheFiles st).2.openHandles = st.openHandles :=
  ⟨processDisk_openHandles env mtPt diskId st h1 h2 h3 h4,
   checkDbChangeCache_openHandles env diskId mtPt cacheFiles st h1 h2 h3⟩

theorem claim_C9_handles_closed_witness :
    (processDisk (mkEnv cfgRW [] []) "/m1" "d1" st0).2.openHandles = st0.openHandles ∧
    (checkDbChangeCache (mkEnv cfgRW [] []) "d1" "/m1" [] st0).2.openHandles
      = st0.openHandles :=
  claim_C9_handles_closed (mkEnv cfgRW [] []) "/m1" "d1" [] st0 rfl rfl
    (List.not_mem_nil _) (List.not_mem_nil _)

lemma sweepLoop_cons_ok (env : Env) (mtPt diskId : String)
    (rest : List (String × String)) (st st1 st2 : RSt)
    (h1 : checkStopJ env st = (Except.ok (), st1))
    (h2 : processDisk env mtPt diskId st1 = (Except.ok (), st2)) :
    sweepLoop env ((mtPt, diskId) :: rest) st = sweepLoop env rest st2 := by
  simp only [sweepLoop, h1, h2]

lemma sweepLoop_cons_err (env : Env) (mtPt diskId : String)
    (rest : List (String × String)) (st st1 st2 : RSt) (e : JExc)
    (h1 : checkStopJ env st = (Except.ok (), st1))
    (h2 : processDisk env mtPt diskId st1 = (Except.error e, st2)) :
    sweepLoop env ((mtPt, diskId) :: rest) st = (Except.error e, st2) := by
  simp only [sweepLoop, h1, h2]

/-- C5: `_openDbSnapshot` yields the unavailable result (`None`) exactly
when the snapshot file does not exist and the configuration permits neither
archive nor remove requests; an existing file is opened read-write when
archive or remove requests are permitted and read-only otherwise; and on
the unavailable result the sweep skips the disk unchanged and continues
with the next one. -/
theorem claim_C5_openSnapshot :
    (∀ (cfg : Config) (ex : Bool), _openDbSnapshot cfg ex = none ↔
      (ex = false ∧ cfg.allowArchiveReq = false ∧ cfg.allowRemoveReq = false)) ∧
    (∀ cfg : Config, _openDbSnapshot cfg true
      = some (if _updateSnapshot cfg then DbmMode.w else DbmMode.r)) ∧
    (∀ (env : Env) (mtPt diskId : String) (st : RSt)
      (rest : List (String × String)),
      env.openErrs.contains mtPt = false →
      snapsLookup st.snapshots mtPt = none →
      _updateSnapshot env.cfg = false →
      st.varSnapOpen = false → st.varTmpOpen = false →
      processDisk env mtPt diskId st = (Except.ok (), st) ∧
      (env.stopEvt st.clock = false →
        sweepLoop env ((mtPt, diskId) :: rest) st
          = sweepLoop env rest { st with clock := st.clock + 1 })) := by
  refine ⟨?_, ?_, ?_⟩
  · intro cfg ex
    constructor
    · intro h
      cases ex with
      | true =>
        unfold _openDbSnapshot at h
        by_cases hu : _updateSnapshot cfg <;> simp [hu] at h
      | false =>
        unfold _openDbSnapshot at h
        by_cases hu : _updateSnapshot cfg
        · simp [hu] at h
        · refine ⟨rfl, ?_, ?_⟩ <;>
          · revert hu
            unfold _updateSnapshot
            cases cfg.allowArchiveReq <;> cases cfg.allowRemoveReq <;> simp
    · rintro ⟨rfl, h1, h2⟩
      unfold _openDbSnapshot _updateSnapshot
      rw [h1, h2]
      rfl
  · intro cfg
    unfold _openDbSnapshot
    by_cases hu : _updateSnapshot cfg <;> simp [hu]
  · intro env mtPt diskId st rest h1 h2 h3 h4 h5
    have hopen : ∀ st' : RSt, snapsLookup st'.snapshots mtPt = none →
        openSnapshotVars env mtPt st' = (Except.ok none, st') := by
      intro st' h2'
      unfold openSnapshotVars
      rw [if_neg (by rw [h1]; simp), h2']
      simp only [Option.isSome_none]
      unfold _openDbSnapshot
      rw [if_neg (by simp)]
      rw [h3]
      rfl
    have hproc : ∀ st' : RSt, snapsLookup st'.snapshots mtPt = none →
        st'.varSnapOpen = false → st'.varTmpOpen = false →
        processDisk env mtPt diskId st' = (Except.ok (), st') := by
      intro st' h2' h4' h5'
      have hbody : processDiskBody env mtPt diskId st' = (Except.ok (), st') := by
        unfold processDiskBody
        rw [hopen st' h2']
      have hclose : closeSnapshotVars mtPt st' = st' := by
        simp [closeSnapshotVars, h4', h5']
      show ((processDiskBody env mtPt diskId st').1,
        closeSnapshotVars mtPt (processDiskBody env mtPt diskId st').2)
          = (Except.ok (), st')
      rw [hbody]
      simp only
      rw [hclose]
    refine ⟨hproc st h2 h4 h5, ?_⟩
    intro hstop
    have hcs : checkStopJ env st = (Except.ok (), { st with clock := st.clock + 1 }) := by
      unfold checkStopJ
      rw [if_neg (by simp [hstop])]
    exact sweepLoop_cons_ok env mtPt diskId rest st _ _ hcs
      (hproc { st with clock := st.clock + 1 } h2 h4 h5)

theorem claim_C5_openSnapshot_witness :
    processDisk (mkEnv cfgRO [] []) "/m1" "d1" st0 = (Except.ok (), st0) ∧
    sweepLoop (mkEnv cfgRO [] []) [("/m1", "d1")] st0
      = sweepLoop (mkEnv cfgRO [] []) [] { st0 with clock := st0.clock + 1 } := by
  have h := claim_C5_openSnapshot.2.2 (mkEnv cfgRO [] []) "/m1" "d1" st0 []
    rfl rfl rfl rfl rfl
  exact ⟨h.1, h.2 rfl⟩

lemma runTasksAux_ok_executed {σ : Type} :
    ∀ (ts : List (σ → TaskResult σ)) (s : σ) (i : Nat) (ex : List Nat)
      (s1 : σ) (ex1 : List Nat),
    runTasksAux ts s i ex = (TaskResult.ok s1, ex1) →
    ex1 = ex ++ (List.range ts.length).map (i + ·) := by
  intro ts
  induction ts with
  | nil =>
    intro s i ex s1 ex1 h
    simp only [runTasksAux, Prod.mk.injEq] at h
    simp [h.2.symm]
  | cons t rest ih =>
    intro s i ex s1 ex1 h
    simp only [runTasksAux] at h
    cases ht : t s with
    | ok s' =>
      rw [ht] at h
      have := ih s' (i + 1) (ex ++ [i]) s1 ex1 h
      rw [this, List.length_cons, List.range_succ_eq_map, List.map_cons,
        List.map_map, List.append_assoc, List.singleton_append]
      have hmap : List.map ((fun x => i + x) ∘ Nat.succ) (List.range rest.length)
          = List.map (fun x => i + 1 + x) (List.range rest.length) := by
        apply List.map_congr_left
        intro a _
        simp only [Function.comp_apply]
        omega
      rw [hmap]
      simp
    | err s' m =>
      rw [ht] at h
      exact absurd h (by simp)
    | stop s' =>
      rw [ht] at h
      exact absurd h (by simp)

lemma runTasksAux_append_ok {σ : Type} :
    ∀ (ts1 : List (σ → TaskResult σ)) (ts2 : List (σ → TaskResult σ))
      (s : σ) (i : Nat) (ex : List Nat) (s1 : σ) (ex1 : List Nat),
    runTasksAux ts1 s i ex = (TaskResult.ok s1, ex1) →
    runTasksAux (ts1 ++ ts2) s i ex = runTasksAux ts2 s1 (i + ts1.length) ex1 := by
  intro ts1
  induction ts1 with
  | nil =>
    intro ts2 s i ex s1 ex1 h
    simp only [runTasksAux, Prod.mk.injEq, TaskResult.ok.injEq] at h
    rw [List.nil_append, List.length_nil, Nat.add_zero, h.1, h.2]
  | cons t rest ih =>
    intro ts2 s i ex s1 ex1 h
    simp only [runTasksAux] at h
    rw [List.cons_append]
    cases ht : t s with
    | ok s' =>
      rw [ht] at h
      have hstep : runTasksAux ((t :: (rest ++ ts2))) s i ex
          = runTasksAux (rest ++ ts2) s' (i + 1) (ex ++ [i]) := by
        simp only [runTasksAux, ht]
      rw [hstep, ih ts2 s' (i + 1) (ex ++ [i]) s1 ex1 h, List.length_cons]
      have harith : i + 1 + rest.length = i + (rest.length + 1) := by omega
      rw [harith]
    | err s' m =>
      rw [ht] at h
      exact absurd h (by simp)
    | stop s' =>
      rw [ht] at h
      exact absurd h (by simp)

/-- C4 (counterexample to the claim as stated): in a cycle of three tasks
whose second raises a non-cancellation exception, the third task does not
execute — the single cycle-level `except` handler of `JanitorCycle` catches
the exception after abandoning the rest of the task sequence, so it is not
true that "every remaining task of the same cycle still executes". -/
theorem claim_C4_counterexample :
    JanitorCycle [taskOk, taskFail, taskOk] false 0
      = CycleOutcome.errorLogged 1 [0, 1] "boom" ∧
    (2 : Nat) ∉ ([0, 1] : List Nat) :=
  ⟨rfl, by decide⟩

/-- C4 (amended): within one janitor cycle, a non-cancellation exception in
a task is caught and logged by the single cycle-level handler and ends the
cycle: exactly the tasks up to and including the failing one have run, the
remaining tasks of the cycle do not execute, and the janitor proceeds to
the next cycle; only the cancellation signal is re-raised and unwinds the
whole cycle (also having ended the task sequence at the point it fired). -/
theorem claim_C4_cycleAborts {σ : Type} :
    (∀ (ts1 ts2 : List (σ → TaskResult σ)) (t : σ → TaskResult σ) (s s1 s2 : σ)
      (m : String) (ex1 : List Nat),
      runTasksAux ts1 s 0 [] = (TaskResult.ok s1, ex1) →
      t s1 = TaskResult.err s2 m →
      JanitorCycle (ts1 ++ t :: ts2) false s
        = CycleOutcome.errorLogged s2 (List.range (ts1.length + 1)) m) ∧
    (∀ (ts1 ts2 : List (σ → TaskResult σ)) (t : σ → TaskResult σ) (s s1 s2 : σ)
      (ex1 : List Nat),
      runTasksAux ts1 s 0 [] = (TaskResult.ok s1, ex1) →
      t s1 = TaskResult.stop s2 →
      JanitorCycle (ts1 ++ t :: ts2) false s
        = CycleOutcome.stopped s2 (List.range (ts1.length + 1))) := by
  have hex : ∀ (ts1 : List (σ → TaskResult σ)) (s : σ) (s1 : σ) (ex1 : List Nat),
      runTasksAux ts1 s 0 [] = (TaskResult.ok s1, ex1) →
      ex1 = List.range ts1.length := by
    intro ts1 s s1 ex1 h
    have := runTasksAux_ok_executed ts1 s 0 [] s1 ex1 h
    rw [this, List.nil_append]
    simp
  constructor
  · intro ts1 ts2 t s s1 s2 m ex1 h1 h2
    unfold JanitorCycle
    rw [if_neg (by simp)]
    rw [runTasksAux_append_ok ts1 (t :: ts2) s 0 [] s1 ex1 h1]
    have hstep : runTasksAux (t :: ts2) s1 (0 + ts1.length) ex1
        = (TaskResult.err s2 m, ex1 ++ [0 + ts1.length]) := by
      simp only [runTasksAux, h2]
    rw [hstep]
    simp only
    rw [hex ts1 s s1 ex1 h1]
    rw [show (0 + ts1.length) = ts1.length from by omega, ← List.range_succ]
  · intro ts1 ts2 t s s1 s2 ex1 h1 h2
    unfold JanitorCycle
    rw [if_neg (by simp)]
    rw [runTasksAux_append_ok ts1 (t :: ts2) s 0 [] s1 ex1 h1]
    have hstep : runTasksAux (t :: ts2) s1 (0 + ts1.length) ex1
        = (TaskResult.stop s2, ex1 ++ [0 + ts1.length]) := by
      simp only [runTasksAux, h2]
    rw [hstep]
    simp only
    rw [hex ts1 s s1 ex1 h1]
    rw [show (0 + ts1.length) = ts1.length from by omega, ← List.range_succ]

theorem claim_C4_cycleAborts_witness :
    JanitorCycle [taskOk, taskFail, taskOk] false 0
      = CycleOutcome.errorLogged 1 (List.range 2) "boom" ∧
    JanitorCycle [taskOk, taskStop, taskOk] false 0
      = CycleOutcome.stopped 1 (List.range 2) :=
  ⟨claim_C4_cycleAborts.1 [taskOk] [taskOk] taskFail 0 1 1 "boom" [0] rfl rfl,
   claim_C4_cycleAborts.2 [taskOk] [taskOk] taskStop 0 1 1 [0] rfl rfl⟩

/-- C3 (counterexample to the claim as stated): with the store of `/m1`
failing to open, the sweep over `[/m1, /m2]` ends with that error and
`/m2` is left unreconciled — its stale snapshot entry `f1_1` survives —
although the same sweep restricted to `/m2` alone does remove the entry.
So an error on one disk is not caught and does prevent reconciliation of
the remaining disks. -/
theorem claim_C3_counterexample :
    (sweepLoop (mkEnv cfgRW [] ["/m1"]) [("/m1", "d1"), ("/m2", "d2")] wC3).1
      = Except.error (JExc.err "bsddb open failed") ∧
    dbmHasKey ((snapsLookup
        (sweepLoop (mkEnv cfgRW [] ["/m1"]) [("/m1", "d1"), ("/m2", "d2")] wC3).2.snapshots
        "/m2").getD []) "f1_1" = true ∧
    dbmHasKey ((snapsLookup
        (sweepLoop (mkEnv cfgRW [] []) [("/m2", "d2")] wC3).2.snapshots
        "/m2").getD []) "f1_1" = false :=
  ⟨rfl, by decide, by decide⟩

/-- C3 (amended): the per-disk `try` of the sweep has a `finally` but no
`except` clause, so a non-cancellation error raised while opening or
processing one disk's snapshot store propagates and ends the whole sweep
with that error — the remaining disks of the same sweep are not
reconciled.  The failing disk's processing nevertheless cannot touch any
other mount point's persistent snapshot store. -/
theorem claim_C3_sweepAborts (env : Env) (mtPt diskId : String)
    (rest : List (String × String)) (st st1 st2 : RSt) (e : JExc)
    (h1 : checkStopJ env st = (Except.ok (), st1))
    (h2 : processDisk env mtPt diskId st1 = (Except.error e, st2)) :
    sweepLoop env ((mtPt, diskId) :: rest) st = (Except.error e, st2) ∧
    ∀ m, m ≠ mtPt →
      snapsLookup st2.snapshots m = snapsLookup st1.snapshots m := by
  refine ⟨sweepLoop_cons_err env mtPt diskId rest st st1 st2 e h1 h2, ?_⟩
  intro m hm
  have := processDisk_snapshots_other env mtPt diskId m st1 hm
  rw [h2] at this
  exact this

theorem claim_C3_sweepAborts_witness :
    sweepLoop (mkEnv cfgRW [] ["/m1"]) [("/m1", "d1"), ("/m2", "d2")] wC3
      = (Except.error (JExc.err "bsddb open failed"), { wC3 with clock := 1 }) ∧
    snapsLookup ({ wC3 with clock := 1 } : RSt).snapshots "/m2"
      = snapsLookup ({ wC3 with clock := 1 } : RSt).snapshots "/m2" :=
  have h := claim_C3_sweepAborts (mkEnv cfgRW [] ["/m1"]) "/m1" "d1" [("/m2", "d2")]
    wC3 { wC3 with clock := 1 } { wC3 with clock := 1 }
    (JExc.err "bsddb open failed") rfl rfl
  ⟨h.1, h.2 "/m2" (by decide)⟩

/-- The count/sync/stop block touches only the counter and the stop clock:
every data store and the DB pass through it unchanged. -/
lemma passTail_data (env : Env) (st : RSt) :
    (passTail env st).2.db = st.db ∧
    (passTail env st).2.tmpSnapshotDbm = st.tmpSnapshotDbm ∧
    (passTail env st).2.snapshotDelDbm = st.snapshotDelDbm ∧
    (passTail env st).2.snapshotDbm = st.snapshotDbm ∧
    (passTail env st).2.lostFileRefs = st.lostFileRefs := by
  unfold passTail checkStopJ
  by_cases h1 : ({ st with count := st.count + 1 } : RSt).count % 100 = 0 <;>
    by_cases h2 : env.stopEvt ({ st with count := st.count + 1 } : RSt).clock <;>
    simp [h1, h2]

lemma delSnapshotLoop_applies (keys : List String) :
    ∀ st : RSt, st.snapMode ≠ DbmMode.r →
      delSnapshotLoop keys st
        = (Except.ok (), { st with snapshotDbm := delApply keys st.snapshotDbm }) := by
  induction keys with
  | nil => intro st _; simp [delSnapshotLoop, delApply]
  | cons key rest ih =>
    intro st hmode
    rw [delSnapshotLoop]
    by_cases hk : strFind key "__"
    · rw [if_pos hk, ih st hmode]
      have : delApply (key :: rest) st.snapshotDbm = delApply rest st.snapshotDbm := by
        simp [delApply, hk]
      rw [this]
    · rw [if_neg hk]
      have hdel : snapshotDelKey st key
          = (Except.ok (), { st with snapshotDbm := dbmDel st.snapshotDbm key }) := by
        unfold snapshotDelKey
        rw [if_neg hmode]
      rw [hdel]
      show delSnapshotLoop rest { st with snapshotDbm := dbmDel st.snapshotDbm key } = _
      rw [ih { st with snapshotDbm := dbmDel st.snapshotDbm key } hmode]
      have : delApply (key :: rest) st.snapshotDbm
          = delApply rest (dbmDel st.snapshotDbm key) := by
        simp [delApply, hk]
      rw [this]

/-- C1 (counterexample to the claim as stated): the snapshot entry
`a__b_1` of a file that is absent from the filesystem is scheduled for
deletion by Pass A, yet after the sweep it is still in the persistent
snapshot — the deletion loop skips every key containing a double
underscore — even though the sweep completed without error on a writable
store and the DB remained without the record.  So it is not true that
after the full iteration every key of the deletion set is removed. -/
theorem claim_C1_counterexample :
    (sweepLoop (mkEnv cfgRW [] []) [("/m1", "d1")] wC1).1 = Except.ok () ∧
    dbmHasKey ((snapsLookup
        (sweepLoop (mkEnv cfgRW [] []) [("/m1", "d1")] wC1).2.snapshots
        "/m1").getD []) "a__b_1" = true ∧
    (sweepLoop (mkEnv cfgRW [] []) [("/m1", "d1")] wC1).2.db = [] :=
  ⟨rfl, by decide, by decide⟩

/-- C1 (amended): for a non-administrative entry of the persistent
snapshot whose key is absent from the temporary DB-derived store and whose
record decodes: if the file exists at its expected path the record is
written to the DB and the key carried into the temporary store; if the
file does not exist the key is added to the deferred deletion set — but
only when the configuration allows archive or remove requests
(`_updateSnapshot`) — and the DB is untouched; after the full iteration
the deletion loop removes from the persistent snapshot exactly the
scheduled keys that do not contain a double underscore (on a writable
handle), leaving the DB unchanged. -/
theorem claim_C1_passA (env : Env) (mtPt key : String) (st : RSt)
    (encDic : List (Nat × String)) (obj : FileInfoObj)
    (hadm : strFind key "___" = false)
    (habs : dbmHasKey st.tmpSnapshotDbm key = false)
    (hdec : _encFileInfo2Obj st.snapshotDbm encDic = Except.ok (some obj)) :
    (env.fs.contains (os_path_normpath (mtPt ++ "/" ++ obj.getFilename)) = true →
      (passAStep env mtPt st (key, SnapVal.enc encDic)).2.db
          = dbWriteFileInfo st.db obj ∧
      (passAStep env mtPt st (key, SnapVal.enc encDic)).2.tmpSnapshotDbm
          = dbmPut st.tmpSnapshotDbm key (SnapVal.enc encDic)) ∧
    (env.fs.contains (os_path_normpath (mtPt ++ "/" ++ obj.getFilename)) = false →
      (passAStep env mtPt st (key, SnapVal.enc encDic)).2.db = st.db ∧
      (passAStep env mtPt st (key, SnapVal.enc encDic)).2.snapshotDelDbm
          = (if _updateSnapshot env.cfg then delAdd st.snapshotDelDbm key
             else st.snapshotDelDbm)) ∧
    (∀ (keys : List String) (st' : RSt), st'.snapMode ≠ DbmMode.r →
      delSnapshotLoop keys st'
        = (Except.ok (), { st' with snapshotDbm := delApply keys st'.snapshotDbm })) := by
  have hred : passAStep env mtPt st (key, SnapVal.enc encDic)
      = (if env.fs.contains (os_path_normpath (mtPt ++ "/" ++ obj.getFilename)) then
          passTail env { st with
            db := dbWriteFileInfo st.db obj
            tmpSnapshotDbm := dbmPut st.tmpSnapshotDbm key (SnapVal.enc encDic) }
        else
          passTail env (if _updateSnapshot env.cfg then
            { st with snapshotDelDbm := delAdd st.snapshotDelDbm key } else st)) := by
    simp only [passAStep, hadm, habs, hdec]
    simp
  refine ⟨?_, ?_, fun keys st' h => delSnapshotLoop_applies keys st' h⟩
  · intro hfs
    rw [hred, if_pos hfs]
    exact ⟨(passTail_data env _).1, (passTail_data env _).2.1⟩
  · intro hfs
    rw [hred, if_neg (by rw [hfs]; simp)]
    by_cases hu : _updateSnapshot env.cfg
    · rw [if_pos hu, if_pos hu]
      exact ⟨(passTail_data env _).1, (passTail_data env _).2.2.1⟩
    · rw [if_neg hu, if_neg hu]
      exact ⟨(passTail_data env _).1, (passTail_data env _).2.2.1⟩

theorem claim_C1_passA_witness :
    ((passAStep (mkEnv cfgRW ["/m1/data/f1"] []) "/m1"
        { st0 with snapshotDbm := dictStore } ("f1_1", SnapVal.enc encP.1)).2.db
      = dbWriteFileInfo ({ st0 with snapshotDbm := dictStore } : RSt).db objP ∧
    (passAStep (mkEnv cfgRW ["/m1/data/f1"] []) "/m1"
        { st0 with snapshotDbm := dictStore } ("f1_1", SnapVal.enc encP.1)).2.tmpSnapshotDbm
      = dbmPut ({ st0 with snapshotDbm := dictStore } : RSt).tmpSnapshotDbm "f1_1"
          (SnapVal.enc encP.1)) ∧
    ((passAStep (mkEnv cfgRW [] []) "/m1"
        { st0 with snapshotDbm := dictStore } ("f1_1", SnapVal.enc encP.1)).2.db
      = ({ st0 with snapshotDbm := dictStore } : RSt).db ∧
    (passAStep (mkEnv cfgRW [] []) "/m1"
        { st0 with snapshotDbm := dictStore } ("f1_1", SnapVal.enc encP.1)).2.snapshotDelDbm
      = (if _updateSnapshot (mkEnv cfgRW [] []).cfg then
          delAdd ({ st0 with snapshotDbm := dictStore } : RSt).snapshotDelDbm "f1_1"
         else ({ st0 with snapshotDbm := dictStore } : RSt).snapshotDelDbm)) ∧
    delSnapshotLoop ["f1_1"] { st0 with snapMode := DbmMode.w }
      = (Except.ok (), { ({ st0 with snapMode := DbmMode.w } : RSt) with
          snapshotDbm := delApply ["f1_1"] ({ st0 with snapMode := DbmMode.w } : RSt).snapshotDbm }) :=
  ⟨(claim_C1_passA (mkEnv cfgRW ["/m1/data/f1"] []) "/m1" "f1_1"
      { st0 with snapshotDbm := dictStore } encP.1 objP (by decide) (by decide)
      rfl).1 (by decide),
   (claim_C1_passA (mkEnv cfgRW [] []) "/m1" "f1_1"
      { st0 with snapshotDbm := dictStore } encP.1 objP (by decide) (by decide)
      rfl).2.1 (by decide),
   (claim_C1_passA (mkEnv cfgRW [] []) "/m1" "f1_1"
      { st0 with snapshotDbm := dictStore } encP.1 objP (by decide) (by decide)
      rfl).2.2 ["f1_1"] { st0 with snapMode := DbmMode.w } (by decide)⟩

/-- On a writable handle a snapshot write succeeds and the tail block runs
on the updated state. -/
lemma putThenTail_write (env : Env) (st : RSt) (k : String) (v : SnapVal)
    (hmode : st.snapMode ≠ DbmMode.r) :
    putThenTail env st k v
      = passTail env { st with snapshotDbm := dbmPut st.snapshotDbm k v } := by
  unfold putThenTail snapshotPut
  rw [if_neg hmode]

/-- C2 (counterexample to the claim as stated): with archive and remove
requests disallowed, the sweep over a disk whose DB record has no snapshot
entry completes without error, the file is present on disk, and yet the
entry is NOT inserted into the persistent snapshot — the Pass B insert is
guarded by `_updateSnapshot` (lines 718–719), which the claim omits.  The
DB is unchanged, as claimed. -/
theorem claim_C2_counterexample :
    (sweepLoop (mkEnv cfgRO ["/m1/data/f1"] []) [("/m1", "d1")] wC2).1 = Except.ok () ∧
    dbmHasKey ((snapsLookup
        (sweepLoop (mkEnv cfgRO ["/m1/data/f1"] []) [("/m1", "d1")] wC2).2.snapshots
        "/m1").getD []) "f1_1" = false ∧
    (sweepLoop (mkEnv cfgRO ["/m1/data/f1"] []) [("/m1", "d1")] wC2).2.db = wC2.db :=
  ⟨rfl, by decide, by decide⟩

/-- C2 (amended): for a non-administrative entry of the temporary
DB-derived store whose key is absent from the persistent snapshot and
whose record decodes: if the file exists at its expected path the entry is
written into the persistent snapshot — but only when the configuration
allows archive or remove requests (`_updateSnapshot`); with a read-only
configuration nothing is written — and the DB is unchanged either way; if
the file does not exist the record is deleted from the central database
and the persistent snapshot is untouched (so it remains without the
key). -/
theorem claim_C2_passB (env : Env) (mtPt key : String) (st : RSt)
    (encDic : List (Nat × String)) (obj : FileInfoObj)
    (hadm : strFind key "___" = false)
    (habs : dbmHasKey st.snapshotDbm key = false)
    (hdec : _encFileInfo2Obj st.tmpSnapshotDbm encDic = Except.ok (some obj)) :
    (env.fs.contains (os_path_normpath (mtPt ++ "/" ++ obj.getFilename)) = true →
      _updateSnapshot env.cfg = true → st.snapMode ≠ DbmMode.r →
      (passBStep env mtPt st (key, SnapVal.enc encDic)).2.snapshotDbm
          = dbmPut st.snapshotDbm key (SnapVal.enc encDic) ∧
      (passBStep env mtPt st (key, SnapVal.enc encDic)).2.db = st.db) ∧
    (env.fs.contains (os_path_normpath (mtPt ++ "/" ++ obj.getFilename)) = true →
      _updateSnapshot env.cfg = false →
      (passBStep env mtPt st (key, SnapVal.enc encDic)).2.snapshotDbm
          = st.snapshotDbm ∧
      (passBStep env mtPt st (key, SnapVal.enc encDic)).2.db = st.db) ∧
    (env.fs.contains (os_path_normpath (mtPt ++ "/" ++ obj.getFilename)) = false →
      (passBStep env mtPt st (key, SnapVal.enc encDic)).2.db
          = _delFileEntry st.db obj ∧
      (passBStep env mtPt st (key, SnapVal.enc encDic)).2.snapshotDbm
          = st.snapshotDbm) := by
  have hred : passBStep env mtPt st (key, SnapVal.enc encDic)
      = (if env.fs.contains (os_path_normpath (mtPt ++ "/" ++ obj.getFilename)) then
          (if _updateSnapshot env.cfg then
            putThenTail env st key (SnapVal.enc encDic)
          else passTail env st)
        else
          passTail env { st with db := _delFileEntry st.db obj }) := by
    simp only [passBStep, hadm, habs, hdec]
    simp
  refine ⟨?_, ?_, ?_⟩
  · intro hfs hu hmode
    rw [hred, if_pos hfs, if_pos hu, putThenTail_write env st key _ hmode]
    exact ⟨(passTail_data env _).2.2.2.1, (passTail_data env _).1⟩
  · intro hfs hu
    rw [hred, if_pos hfs, if_neg (by rw [hu]; simp)]
    exact ⟨(passTail_data env _).2.2.2.1, (passTail_data env _).1⟩
  · intro hfs
    rw [hred, if_neg (by rw [hfs]; simp)]
    exact ⟨(passTail_data env _).1, (passTail_data env _).2.2.2.1⟩

theorem claim_C2_passB_witness :
    ((passBStep (mkEnv cfgRW ["/m1/data/f1"] []) "/m1"
        { st0 with
          tmpSnapshotDbm := dictStore
          snapMode := DbmMode.w } ("f1_1", SnapVal.enc encP.1)).2.snapshotDbm
      = dbmPut ({ st0 with
          tmpSnapshotDbm := dictStore
          snapMode := DbmMode.w } : RSt).snapshotDbm "f1_1" (SnapVal.enc encP.1) ∧
    (passBStep (mkEnv cfgRW ["/m1/data/f1"] []) "/m1"
        { st0 with
          tmpSnapshotDbm := dictStore
          snapMode := DbmMode.w } ("f1_1", SnapVal.enc encP.1)).2.db
      = ({ st0 with
          tmpSnapshotDbm := dictStore
          snapMode := DbmMode.w } : RSt).db) ∧
    ((passBStep (mkEnv cfgRO ["/m1/data/f1"] []) "/m1"
        { st0 with tmpSnapshotDbm := dictStore } ("f1_1", SnapVal.enc encP.1)).2.snapshotDbm
      = ({ st0 with tmpSnapshotDbm := dictStore } : RSt).snapshotDbm ∧
    (passBStep (mkEnv cfgRO ["/m1/data/f1"] []) "/m1"
        { st0 with tmpSnapshotDbm := dictStore } ("f1_1", SnapVal.enc encP.1)).2.db
      = ({ st0 with tmpSnapshotDbm := dictStore } : RSt).db) ∧
    ((passBStep (mkEnv cfgRW [] []) "/m1"
        { st0 with tmpSnapshotDbm := dictStore } ("f1_1", SnapVal.enc encP.1)).2.db
      = _delFileEntry ({ st0 with tmpSnapshotDbm := dictStore } : RSt).db objP ∧
    (passBStep (mkEnv cfgRW [] []) "/m1"
        { st0 with tmpSnapshotDbm := dictStore } ("f1_1", SnapVal.enc encP.1)).2.snapshotDbm
      = ({ st0 with tmpSnapshotDbm := dictStore } : RSt).snapshotDbm) :=
  ⟨(claim_C2_passB (mkEnv cfgRW ["/m1/data/f1"] []) "/m1" "f1_1"
      { st0 with
        tmpSnapshotDbm := dictStore
        snapMode := DbmMode.w } encP.1 objP (by decide) (by decide) rfl).1
      (by decide) (by decide) (by decide),
   (claim_C2_passB (mkEnv cfgRO ["/m1/data/f1"] []) "/m1" "f1_1"
      { st0 with tmpSnapshotDbm := dictStore } encP.1 objP (by decide) (by decide)
      rfl).2.1 (by decide) (by decide),
   (claim_C2_passB (mkEnv cfgRW [] []) "/m1" "f1_1"
      { st0 with tmpSnapshotDbm := dictStore } encP.1 objP (by decide) (by decide)
      rfl).2.2 (by decide)⟩

/-- C6: a snapshot record whose metadata uses a column-name id with no
id→name reverse mapping in the store decodes to the "no record" result
(`ok none`), not an error; Pass A then leaves the state completely
unchanged for that entry and the loop continues with the remaining
entries. -/
theorem claim_C6_decodeSkip (env : Env) (mtPt key : String) (st : RSt)
    (encDic : List (Nat × String))
    (hadm : strFind key "___" = false)
    (hall : ∀ p ∈ encDic,
      dbmLookup st.snapshotDbm (NGAMS_SN_SH_ID2NM_TAG ++ natToStr p.1) = none ∨
      ∃ cn, dbmLookup st.snapshotDbm (NGAMS_SN_SH_ID2NM_TAG ++ natToStr p.1)
          = some (SnapVal.str cn) ∧ cn ∈ ngasFilesCols)
    (hex : ∃ p ∈ encDic,
      dbmLookup st.snapshotDbm (NGAMS_SN_SH_ID2NM_TAG ++ natToStr p.1) = none) :
    _encFileInfo2Obj st.snapshotDbm encDic = Except.ok none ∧
    passAStep env mtPt st (key, SnapVal.enc encDic) = (Except.ok (), st) ∧
    ∀ rest, passALoop env mtPt ((key, SnapVal.enc encDic) :: rest) st
      = passALoop env mtPt rest st := by
  have hdec : _encFileInfo2Obj st.snapshotDbm encDic = Except.ok none := by
    unfold _encFileInfo2Obj
    rw [decodeLoop_missing st.snapshotDbm encDic _ hall hex]
    rfl
  have hstep : passAStep env mtPt st (key, SnapVal.enc encDic) = (Except.ok (), st) := by
    simp only [passAStep, hadm, hdec]
    simp
  refine ⟨hdec, hstep, fun rest => ?_⟩
  simp only [passALoop, hstep]

theorem claim_C6_decodeSkip_witness :
    _encFileInfo2Obj ({ st0 with snapshotDbm := dictStore } : RSt).snapshotDbm [(99, "x")]
      = Except.ok none ∧
    passAStep (mkEnv cfgRW [] []) "/m1" { st0 with snapshotDbm := dictStore }
      ("bad_1", SnapVal.enc [(99, "x")])
      = (Except.ok (), { st0 with snapshotDbm := dictStore }) ∧
    passALoop (mkEnv cfgRW [] []) "/m1"
        (("bad_1", SnapVal.enc [(99, "x")]) :: [("f1_1", SnapVal.enc encP.1)])
        { st0 with snapshotDbm := dictStore }
      = passALoop (mkEnv cfgRW [] []) "/m1" [("f1_1", SnapVal.enc encP.1)]
        { st0 with snapshotDbm := dictStore } :=
  have h := claim_C6_decodeSkip (mkEnv cfgRW [] []) "/m1" "bad_1"
    { st0 with snapshotDbm := dictStore } [(99, "x")] (by decide)
    (by intro p hp; simp at hp; subst hp; left; decide)
    ⟨(99, "x"), by decide, by decide⟩
  ⟨h.1, h.2.1, h.2.2 [("f1_1", SnapVal.enc encP.1)]⟩

/-- C8: after a full reconciliation sweep, the lost-files notification is
handed over exactly when the sweep found at least one lost file (the
report being the rendered plain-text report with timestamp, host id,
count, and one line of disk id / file id / version / expected path per
lost file); and a file that is registered in both the DB-derived store and
the persistent snapshot but absent at its expected path is only recorded
in the lost-file list — its DB record, snapshot entry and the deletion set
are all left untouched. -/
theorem claim_C8_lostReport (env : Env) (ts : String)
    (disks : List (String × String)) (st stS : RSt)
    (mtPt key : String) (stp : RSt) (encDic : List (Nat × String)) (obj : FileInfoObj)
    (hcfg : env.cfg.dbSnapshot = true)
    (hS : stS = (sweepLoop env (diskListSort (disks.map (fun p => (p.2, p.1))))
        { st with lostFileRefs := [] }).2)
    (hsweep1 : (sweepLoop env (diskListSort (disks.map (fun p => (p.2, p.1))))
        { st with lostFileRefs := [] }).1 = Except.ok ())
    (hadm : strFind key "___" = false)
    (hkey : dbmHasKey stp.tmpSnapshotDbm key = true)
    (hdec : _encFileInfo2Obj stp.snapshotDbm encDic = Except.ok (some obj))
    (hfs : env.fs.contains (os_path_normpath (mtPt ++ "/" ++ obj.getFilename)) = false) :
    ((checkUpdateDbSnapShots env ts disks st).2.2 = none ↔ stS.lostFileRefs = []) ∧
    (stS.lostFileRefs ≠ [] →
      (checkUpdateDbSnapShots env ts disks st).2.2
        = some (genLostFilesReport ts env.hostId stS.lostFileRefs)) ∧
    ((passAStep env mtPt stp (key, SnapVal.enc encDic)).2.lostFileRefs
        = lfPut stp.lostFileRefs
            (genFileKey (some obj.getDiskId) obj.getFileId obj.getFileVersion)
            (obj.setTag (os_path_normpath (mtPt ++ "/" ++ obj.getFilename))) ∧
      (passAStep env mtPt stp (key, SnapVal.enc encDic)).2.db = stp.db ∧
      (passAStep env mtPt stp (key, SnapVal.enc encDic)).2.snapshotDbm = stp.snapshotDbm ∧
      (passAStep env mtPt stp (key, SnapVal.enc encDic)).2.snapshotDelDbm
        = stp.snapshotDelDbm) := by
  have hsweep : sweepLoop env (diskListSort (disks.map (fun p => (p.2, p.1))))
      { st with lostFileRefs := [] } = (Except.ok (), stS) := by
    rw [hS, ← hsweep1]
  have hrep : checkUpdateDbSnapShots env ts disks st
      = (Except.ok (), stS,
          if stS.lostFileRefs.length ≠ 0 then
            some (genLostFilesReport ts env.hostId stS.lostFileRefs)
          else none) := by
    simp only [checkUpdateDbSnapShots, hcfg, Bool.not_true]
    rw [if_neg (by simp)]
    rw [hsweep]
    show (if stS.lostFileRefs.length ≠ 0 then
        ((Except.ok (), stS, some (genLostFilesReport ts env.hostId stS.lostFileRefs))
          : Except JExc Unit × RSt × Option LostReport)
      else (Except.ok (), stS, none)) = _
    by_cases h : stS.lostFileRefs.length ≠ 0
    · rw [if_pos h, if_pos h]
    · rw [if_neg h, if_neg h]
  have hlost : passAStep env mtPt stp (key, SnapVal.enc encDic)
      = passTail env { stp with lostFileRefs := lfPut stp.lostFileRefs (genFileKey (some obj.getDiskId) obj.getFileId obj.getFileVersion) (obj.setTag (os_path_normpath (mtPt ++ "/" ++ obj.getFilename))) } := by
    simp only [passAStep, hadm, hdec, hkey]
    rw [hfs]
    simp
  refine ⟨?_, ?_, ?_⟩
  · rw [hrep]
    by_cases h : stS.lostFileRefs.length ≠ 0
    · rw [if_pos h]
      constructor
      · intro hc
        exact absurd hc (by simp)
      · intro hc
        rw [hc] at h
        simp at h
    · rw [if_neg h]
      simp only [not_ne_iff] at h
      constructor
      · intro _
        exact List.eq_nil_of_length_eq_zero h
      · intro _
        rfl
  · intro hne
    rw [hrep]
    show (if stS.lostFileRefs.length ≠ 0 then
        some (genLostFilesReport ts env.hostId stS.lostFileRefs) else none)
      = some (genLostFilesReport ts env.hostId stS.lostFileRefs)
    rw [if_pos (by rw [Ne, List.length_eq_zero]; exact hne)]
  · rw [hlost]
    exact ⟨(passTail_data env _).2.2.2.2, (passTail_data env _).1,
      (passTail_data env _).2.2.2.1, (passTail_data env _).2.2.1⟩

theorem claim_C8_lostReport_witness :
    ((checkUpdateDbSnapShots (mkEnv cfgRW [] []) "t0" [("d1", "/m1")] wC8).2.2 = none ↔
      stC8.lostFileRefs = []) ∧
    (checkUpdateDbSnapShots (mkEnv cfgRW [] []) "t0" [("d1", "/m1")] wC8).2.2
      = some (genLostFilesReport "t0" (mkEnv cfgRW [] []).hostId stC8.lostFileRefs) ∧
    ((passAStep (mkEnv cfgRW [] []) "/m1" stpC8 ("f1_1", SnapVal.enc encP.1)).2.lostFileRefs
        = lfPut stpC8.lostFileRefs
            (genFileKey (some objP.getDiskId) objP.getFileId objP.getFileVersion)
            (objP.setTag (os_path_normpath ("/m1" ++ "/" ++ objP.getFilename))) ∧
      (passAStep (mkEnv cfgRW [] []) "/m1" stpC8 ("f1_1", SnapVal.enc encP.1)).2.db
        = stpC8.db ∧
      (passAStep (mkEnv cfgRW [] []) "/m1" stpC8 ("f1_1", SnapVal.enc encP.1)).2.snapshotDbm
        = stpC8.snapshotDbm ∧
      (passAStep (mkEnv cfgRW [] []) "/m1" stpC8 ("f1_1", SnapVal.enc encP.1)).2.snapshotDelDbm
        = stpC8.snapshotDelDbm) :=
  have h := claim_C8_lostReport (mkEnv cfgRW [] []) "t0" [("d1", "/m1")] wC8 stC8
    "/m1" "f1_1" stpC8 encP.1 objP rfl rfl rfl (by decide) (by decide)
    rfl (by decide)
  ⟨h.1, h.2.1 (by decide), h.2.2⟩

/-- C7 (counterexample to the claim as stated): applying a change-cache
delete entry for `(d1, f1, 1)` to a state in which the key is present in
neither the snapshot store nor the DB does complete without error, leaves
the DB unchanged and the key absent — but it does NOT leave the snapshot
store unchanged: the record is encoded before the operation is dispatched,
and encoding registers name-dictionary entries in the store (here the
store was empty and gains them all). -/
theorem claim_C7_counterexample :
    (applyCacheFileInfo st0 objC7 NGAMS_DB_CH_FILE_DELETE).snapshotDbm
      ≠ st0.snapshotDbm ∧
    (applyCacheFileInfo st0 objC7 NGAMS_DB_CH_FILE_DELETE).db = st0.db ∧
    dbmHasKey (applyCacheFileInfo st0 objC7 NGAMS_DB_CH_FILE_DELETE).snapshotDbm
      (_genFileKeyObj objC7) = false ∧
    dbmHasKey st0.snapshotDbm (_genFileKeyObj objC7) = false ∧
    fileInDb st0.db objC7.getDiskId objC7.getFileId objC7.getFileVersion = false := by
  refine ⟨by decide, by decide, by decide, by decide, by decide⟩

/-- The delete dispatch of `applyCacheOp`, for an arbitrary already-encoded
record: remove the snapshot key if present, then delete the DB record if
present. -/
lemma applyCacheOp_delete (st : RSt) (obj : FileInfoObj) (fileKey : String)
    (p : List (Nat × String) × Dbm) :
    applyCacheOp st obj NGAMS_DB_CH_FILE_DELETE fileKey p
      = (if dbmHasKey p.2 fileKey then
          { st with
            snapshotDbm := dbmDel p.2 fileKey
            db := _delFileEntry st.db obj }
        else
          { st with
            snapshotDbm := p.2
            db := _delFileEntry st.db obj }) := by
  simp only [applyCacheOp]
  rw [if_neg (by decide)]
  rw [if_pos (by trivial)]
  by_cases hk : dbmHasKey p.2 fileKey
  · simp only [hk, if_true]
  · simp only [hk, Bool.false_eq_true, if_false]

/-- C7 (amended): a change-cache delete entry deletes the DB record only
if present (in particular the DB is unchanged when the record is absent),
and removes the snapshot key only if present — but "present" is judged
against, and the removal applied to, the store AFTER the record has been
encoded into it, which may extend the name dictionary; the snapshot store
is literally unchanged only when the encoding leaves the store as it was
(a complete name dictionary) and the key is absent. -/
theorem claim_C7_cacheDelete (st : RSt) (obj : FileInfoObj) :
    ((applyCacheFileInfo st obj NGAMS_DB_CH_FILE_DELETE).db
        = _delFileEntry st.db obj) ∧
    (fileInDb st.db obj.getDiskId obj.getFileId obj.getFileVersion = false →
      (applyCacheFileInfo st obj NGAMS_DB_CH_FILE_DELETE).db = st.db) ∧
    ((applyCacheFileInfo st obj NGAMS_DB_CH_FILE_DELETE).snapshotDbm
        = (if dbmHasKey (_encFileInfo st.snapshotDbm obj.genSqlResult).2
              (_genFileKeyObj obj) then
            dbmDel (_encFileInfo st.snapshotDbm obj.genSqlResult).2 (_genFileKeyObj obj)
          else (_encFileInfo st.snapshotDbm obj.genSqlResult).2)) ∧
    ((_encFileInfo st.snapshotDbm obj.genSqlResult).2 = st.snapshotDbm →
      dbmHasKey st.snapshotDbm (_genFileKeyObj obj) = false →
      (applyCacheFileInfo st obj NGAMS_DB_CH_FILE_DELETE).snapshotDbm
        = st.snapshotDbm) := by
  have hred : applyCacheFileInfo st obj NGAMS_DB_CH_FILE_DELETE
      = (if dbmHasKey (_encFileInfo st.snapshotDbm obj.genSqlResult).2
            (_genFileKeyObj obj) then
          { st with
            snapshotDbm := dbmDel (_encFileInfo st.snapshotDbm obj.genSqlResult).2
              (_genFileKeyObj obj)
            db := _delFileEntry st.db obj }
        else
          { st with
            snapshotDbm := (_encFileInfo st.snapshotDbm obj.genSqlResult).2
            db := _delFileEntry st.db obj }) := by
    unfold applyCacheFileInfo
    rw [applyCacheOp_delete]
  have hsnap : (applyCacheFileInfo st obj NGAMS_DB_CH_FILE_DELETE).snapshotDbm
      = (if dbmHasKey (_encFileInfo st.snapshotDbm obj.genSqlResult).2
            (_genFileKeyObj obj) then
          dbmDel (_encFileInfo st.snapshotDbm obj.genSqlResult).2 (_genFileKeyObj obj)
        else (_encFileInfo st.snapshotDbm obj.genSqlResult).2) := by
    rw [hred]
    by_cases hk : dbmHasKey (_encFileInfo st.snapshotDbm obj.genSqlResult).2
        (_genFileKeyObj obj)
    · simp only [hk, if_true]
    · simp only [hk, Bool.false_eq_true, if_false]
  have hdb : (applyCacheFileInfo st obj NGAMS_DB_CH_FILE_DELETE).db
      = _delFileEntry st.db obj := by
    rw [hred]
    by_cases hk : dbmHasKey (_encFileInfo st.snapshotDbm obj.genSqlResult).2
        (_genFileKeyObj obj)
    · simp only [hk, if_true]
    · simp only [hk, Bool.false_eq_true, if_false]
  refine ⟨hdb, ?_, hsnap, ?_⟩
  · intro hnin
    rw [hdb]
    unfold _delFileEntry
    rw [if_neg (by rw [hnin]; simp)]
  · intro hp2 hnk
    rw [hsnap, hp2, if_neg (by rw [hnk]; simp)]

set_option maxRecDepth 100000 in
set_option maxHeartbeats 1000000 in
theorem claim_C7_cacheDelete_witness :
    (applyCacheFileInfo { st0 with snapshotDbm := dictStore } objC7
        NGAMS_DB_CH_FILE_DELETE).db
      = ({ st0 with snapshotDbm := dictStore } : RSt).db ∧
    (applyCacheFileInfo { st0 with snapshotDbm := dictStore } objC7
        NGAMS_DB_CH_FILE_DELETE).snapshotDbm
      = ({ st0 with snapshotDbm := dictStore } : RSt).snapshotDbm :=
  have h := claim_C7_cacheDelete { st0 with snapshotDbm := dictStore } objC7
  ⟨h.2.1 (by decide), h.2.2.2 (by decide) (by decide)⟩

/-- The empty store trivially satisfies the name-dictionary invariant. -/
lemma dictGood_nil : DictGood [] := by
  refine ⟨?_, ?_, ?_, ?_⟩
  · intro name i h
    simp [dbmLookup] at h
  · intro name i h
    simp [dbmLookup] at h
  · intro v h
    simp [dbmLookup] at h
  · intro name v h
    simp [dbmLookup] at h

/-- C10: encoding a full `ngas_files` row against a store whose name
dictionary is consistent and then decoding the encoded record against the
resulting store yields a file-info object whose columns disk id through
I/O time all equal the original row's values. -/
theorem claim_C10_roundTrip (store : Dbm) (fileInfo : List String)
    (hg : DictGood store) (hlen : fileInfo.length = NGAS_FILES_CONTAINER_ID + 1) :
    ∃ obj : FileInfoObj,
      _encFileInfo2Obj (_encFileInfo store fileInfo).2 (_encFileInfo store fileInfo).1
        = Except.ok (some obj) ∧
      ∀ n, n ≤ NGAS_FILES_IO_TIME → obj.row.get? n = some (fileInfo.get? n) :=
  encFileInfo_roundTrip store fileInfo hg hlen

theorem claim_C10_roundTrip_witness :
    ∃ obj : FileInfoObj,
      _encFileInfo2Obj (_encFileInfo [] (sampleRow "d1" "f1" "1" "data/f1")).2
          (_encFileInfo [] (sampleRow "d1" "f1" "1" "data/f1")).1
        = Except.ok (some obj) ∧
      ∀ n, n ≤ NGAS_FILES_IO_TIME →
        obj.row.get? n = some ((sampleRow "d1" "f1" "1" "data/f1").get? n) :=
  claim_C10_roundTrip [] (sampleRow "d1" "f1" "1" "data/f1") dictGood_nil (by decide)
